import Mathlib

/-!
# FrameBuffer: view-identifier lifecycle of a render target

A shallow embedding of `Core/Graphics/Source/FrameBuffer.cpp`.

* The object's members (`m_handle`, `m_width`, ..., `m_requestedViewPort`) are the
  fields of `FrameBuffer`.
* Everything the member functions talk to is in `State`: the allocator behind
  `m_manager`, the swap-chain size reported by `bgfx::getStats()`, and the list of
  calls issued so far to the allocator, to bgfx and to the encoder, oldest first.
* A member function is a function `State → Result α`; a C++ exception is the
  `Result.threw` outcome, which keeps the state reached when it was thrown.
* `float` is IEEE 754 binary32: a stored value is a `Float32` (sign, exponent field,
  fraction; infinities; NaN), and every subtraction and multiplication delivers the
  exact result rounded to the nearest `float`, ties to even (`FloatValue.round`).
  Expressions are taken to be evaluated in `float` precision, as on the platforms
  where `FLT_EVAL_METHOD` is 0.  Unsigned 16-bit quantities are natural numbers.
* A public member function is given a valid encoder.  Only `NewView` sees the
  pointer itself, because `AcquireNewViewId` passes it `nullptr`.
-/

namespace Babylon

/-! ## Handles and identifiers of the graphics layer -/

/-- The numeric view identifier `bgfx::ViewId`. -/
abbrev ViewId := Nat

/-- The index carried by a `bgfx::FrameBufferHandle`. -/
abbrev FrameBufferHandle := Nat

/-- The index carried by a `bgfx::ProgramHandle`. -/
abbrev ProgramHandle := Nat

/-- The index carried by a `bgfx::TextureHandle`. -/
abbrev TextureHandle := Nat

/-- The identity of a `bgfx::Encoder` object (what a non-null `bgfx::Encoder*` points to). -/
abbrev Encoder := Nat

/-- The index `bgfx::kInvalidHandle` (`UINT16_MAX`). -/
def kInvalidHandle : Nat := 65535

/-- The check `bgfx::isValid(handle)`: the index is not `bgfx::kInvalidHandle`. -/
def isValid (handle : FrameBufferHandle) : Bool := handle != kInvalidHandle

/-- The flag set `BGFX_CLEAR_NONE`. -/
def BGFX_CLEAR_NONE : Nat := 0

/-- The enumeration `bgfx::ViewMode::Enum`. -/
inductive ViewMode where
  | Default
  | Sequential
  | DepthAscending
  | DepthDescending
  deriving DecidableEq

/-! ## The type `float` -/

/-- A value of the C++ type `float` (IEEE 754 binary32), by its fields: a finite
number has a sign, a biased exponent field below 255 and a 23-bit fraction. -/
inductive Float32 where
  | finite (negative : Bool) (exponent : Fin 255) (fraction : Fin 8388608)
  | infinite (negative : Bool)
  | nan
  deriving DecidableEq

/-- Whether a `float` is neither an infinity nor NaN. -/
def Float32.isFinite : Float32 → Bool
  | .finite _ _ _ => true
  | _ => false

/-- The number a finite `float` stands for: `±fraction · 2⁻¹⁴⁹` when the exponent
field is zero, `±(2²³ + fraction) · 2^(exponent - 150)` otherwise.  Zero for an
infinity and for NaN, which stand for no number. -/
def Float32.toRat : Float32 → ℚ
  | .finite negative exponent fraction =>
      (if negative then -1 else 1) *
        (if exponent.val = 0 then (fraction.val : ℚ) * 2 ^ (-149 : ℤ)
         else (8388608 + fraction.val : ℚ) * 2 ^ ((exponent.val : ℤ) - 150))
  | _ => 0

/-- What a `float` expression evaluates to: a number, an infinity or NaN.  The sign
of a zero and the payload of a NaN are not kept. -/
inductive FloatValue where
  | nan
  | inf (negative : Bool)
  | fin (q : ℚ)
  deriving DecidableEq

/-- Reading a stored `float`. -/
def Float32.value : Float32 → FloatValue
  | .finite negative exponent fraction => .fin (Float32.toRat (.finite negative exponent fraction))
  | .infinite negative => .inf negative
  | .nan => .nan

/-- The integer nearest to `x`, the even one of the two when `x` lies half way. -/
def roundHalfEven (x : ℚ) : ℤ :=
  if x - ⌊x⌋ < 1 / 2 then ⌊x⌋
  else if 1 / 2 < x - ⌊x⌋ then ⌊x⌋ + 1
  else if ⌊x⌋ % 2 = 0 then ⌊x⌋
  else ⌊x⌋ + 1

/-- The `float` nearest to the number `q` (round to nearest, ties to even), as every
binary32 operation delivers it: numbers are spaced `2^(e - 23)` apart where
`2^e ≤ |q| < 2^(e + 1)`, and `2⁻¹⁴⁹` apart below `2⁻¹²⁶`; a result of magnitude
`2¹²⁸` or more is an infinity. -/
def FloatValue.round (q : ℚ) : FloatValue :=
  if q = 0 then .fin 0
  else if 2 ^ (128 : ℤ) ≤
      |(roundHalfEven (q / 2 ^ (max (Int.log 2 |q|) (-126) - 23)) : ℚ) *
        2 ^ (max (Int.log 2 |q|) (-126) - 23)| then
    .inf (decide (q < 0))
  else
    .fin ((roundHalfEven (q / 2 ^ (max (Int.log 2 |q|) (-126) - 23)) : ℚ) *
      2 ^ (max (Int.log 2 |q|) (-126) - 23))

/-- The `float` subtraction `a - b`. -/
def FloatValue.sub : FloatValue → FloatValue → FloatValue
  | .fin x, .fin y => FloatValue.round (x - y)
  | .fin _, .inf negative => .inf (!negative)
  | .inf negative, .fin _ => .inf negative
  | .inf negative, .inf negative' => if negative = negative' then .nan else .inf negative
  | _, _ => .nan

/-- The `float` multiplication `a * b`. -/
def FloatValue.mul : FloatValue → FloatValue → FloatValue
  | .fin x, .fin y => FloatValue.round (x * y)
  | .fin x, .inf negative => if x = 0 then .nan else .inf (negative != decide (x < 0))
  | .inf negative, .fin y => if y = 0 then .nan else .inf (negative != decide (y < 0))
  | .inf negative, .inf negative' => .inf (negative != negative')
  | _, _ => .nan

/-- The function `std::abs` on `float`. -/
def FloatValue.abs : FloatValue → FloatValue
  | .fin x => .fin |x|
  | .inf _ => .inf false
  | .nan => .nan

/-- The comparison `a < b` on `float`; false when either side is NaN. -/
def FloatValue.lt : FloatValue → FloatValue → Bool
  | .fin x, .fin y => decide (x < y)
  | .fin _, .inf negative => !negative
  | .inf negative, .fin _ => negative
  | .inf negative, .inf negative' => negative && !negative'
  | _, _ => false

/-- The conversion of a `uint16_t` to `float`, which is exact. -/
def FloatValue.ofUInt16 (n : Nat) : FloatValue := .fin n

/-- The conversion `static_cast<uint16_t>(f)` of a `float` that is the number `f`: the
fractional part is discarded (rounding toward zero).  C++ leaves the result
undefined when the truncated value does not fit in 16 bits; it is reduced modulo
`2¹⁶` here. -/
def toUInt16 (f : ℚ) : Nat := (Int.tdiv f.num (f.den : Int) % 65536).toNat

/-- The conversion `static_cast<uint16_t>(f)` of a `float`.  C++ leaves the result
undefined for an infinity and for NaN; it is `0` here. -/
def FloatValue.toUInt16 : FloatValue → Nat
  | .fin q => Babylon.toUInt16 q
  | _ => 0

/-- The number `std::numeric_limits<float>::epsilon()`, that is `2⁻²³`. -/
def epsilon : ℚ := 1 / 2 ^ 23

/-- The `float` `0.0f`. -/
def Float32.zero : Float32 := .finite false 0 0

/-- The `float` `1.0f`. -/
def Float32.one : Float32 := .finite false 127 0

/-- The `float` `0.5f`. -/
def Float32.half : Float32 := .finite false 126 0

/-- The expression `static_cast<uint16_t>(fraction * size)` of `NewView`, with
`fraction` a `float` member of the viewport and `size` the `uint16_t` that `Width()`
or `Height()` returns: `size` is converted to `float`, the product is a `float`
multiplication, and the cast discards the fractional part. -/
def scaleToPixels (fraction : Float32) (size : Nat) : Nat :=
  (fraction.value.mul (FloatValue.ofUInt16 size)).toUInt16

/-! ## ViewPort -/

/-- The struct `FrameBuffer::ViewPort`: a rectangle in fractions of the target's size. -/
structure ViewPort where
  X : Float32
  Y : Float32
  Width : Float32
  Height : Float32
  deriving DecidableEq

/-- The member `FrameBuffer::ViewPort::Equals`. -/
def ViewPort.Equals (self other : ViewPort) : Bool :=
  ((self.X.value.sub other.X.value).abs.lt (.fin epsilon)) &&
  ((self.Y.value.sub other.Y.value).abs.lt (.fin epsilon)) &&
  ((self.Width.value.sub other.Width.value).abs.lt (.fin epsilon)) &&
  ((self.Height.value.sub other.Height.value).abs.lt (.fin epsilon))

/-- Whether no member of the viewport is an infinity or NaN. -/
def ViewPort.isFinite (self : ViewPort) : Bool :=
  self.X.isFinite && self.Y.isFinite && self.Width.isFinite && self.Height.isFinite

/-! ## The collaborators -/

/-- Modelled from the spec: the view-identifier allocator `FrameBufferManager` behind
`m_manager`, whose code is not part of `FrameBuffer.cpp`.  It hands out view
identifiers on demand and reports exhaustion of its pool.  `upcoming` lists its
answers to the requests still to come (`none` is a request it refuses; with no
answer left it refuses too) and `live` the identifiers it has handed out in the
current frame. -/
structure FrameBufferManager where
  upcoming : List (Option ViewId)
  live : List ViewId
  deriving DecidableEq

/-- Modelled from the spec: one call of `FrameBufferManager::NewViewId`, giving the
identifier handed out (or `none` when the pool is exhausted) and the allocator
afterwards. -/
def FrameBufferManager.NewViewId (m : FrameBufferManager) :
    Option ViewId × FrameBufferManager :=
  match m.upcoming with
  | [] => (none, m)
  | none :: rest => (none, { m with upcoming := rest })
  | some id :: rest => (some id, { upcoming := rest, live := id :: m.live })

/-- Modelled from the spec: the allocator's contract "NewViewId never returns an
identifier already live in the current frame": the identifiers still to be handed
out are new and pairwise different. -/
def FrameBufferManager.Unique (m : FrameBufferManager) : Prop :=
  (m.upcoming.filterMap id ++ m.live).Nodup

/-- The part of `bgfx::Stats` that `FrameBuffer.cpp` reads: the swap-chain size. -/
structure Stats where
  width : Nat
  height : Nat
  deriving DecidableEq

/-- A call issued by `FrameBuffer.cpp` to one of its collaborators. -/
inductive Call where
  /-- The request `m_manager.NewViewId()`. -/
  | NewViewId
  /-- The call `bgfx::setViewMode(id, mode)`. -/
  | setViewMode (id : ViewId) (mode : ViewMode)
  /-- The call `bgfx::setViewClear(id, flags, rgba, depth, stencil)`. -/
  | setViewClear (id : ViewId) (flags rgba : Nat) (depth : Float32) (stencil : Nat)
  /-- The call `bgfx::setViewFrameBuffer(id, handle)`. -/
  | setViewFrameBuffer (id : ViewId) (handle : FrameBufferHandle)
  /-- The call `bgfx::setViewRect(id, x, y, width, height)`. -/
  | setViewRect (id : ViewId) (x y width height : Nat)
  /-- The call `encoder->touch(id)`. -/
  | touch (encoder : Encoder) (id : ViewId)
  /-- The call `encoder->submit(id, program, depth, flags)`. -/
  | submit (encoder : Encoder) (id : ViewId) (program : ProgramHandle) (depth flags : Nat)
  /-- The call `encoder->blit(id, dst, dstX, dstY, src, srcX, srcY, width, height)`. -/
  | blit (encoder : Encoder) (id : ViewId) (dst : TextureHandle) (dstX dstY : Nat)
      (src : TextureHandle) (srcX srcY width height : Nat)
  /-- The call `encoder->setStencil(stencilState)`. -/
  | setStencil (encoder : Encoder) (stencilState : Nat)
  /-- The call `bgfx::destroy(handle)`. -/
  | destroy (handle : FrameBufferHandle)
  deriving DecidableEq

/-! ## The object and the state it runs in -/

/-- The data members of `class FrameBuffer` (the reference `m_manager` is the
`manager` field of `State`). -/
structure FrameBuffer where
  m_handle : FrameBufferHandle
  m_width : Nat
  m_height : Nat
  m_defaultBackBuffer : Bool
  m_viewId : Option ViewId
  m_viewPort : ViewPort
  m_requestedViewPort : Option ViewPort
  deriving DecidableEq

/-- The object together with what its member functions read and write outside it. -/
structure State where
  fb : FrameBuffer
  manager : FrameBufferManager
  stats : Stats
  calls : List Call
  deriving DecidableEq

/-- The C++ exceptions a member function can leave with. -/
inductive Error where
  /-- The exception thrown by `FrameBufferManager::NewViewId` when no identifier is left. -/
  | viewIdsExhausted
  /-- The exception `std::bad_optional_access` of `m_viewId.value()` on an empty optional. -/
  | badOptionalAccess
  /-- A member call through a null `bgfx::Encoder*`. -/
  | nullEncoder
  deriving DecidableEq

/-- How a member function ends: it returns `a`, or it throws `e`; either way in state `s`. -/
inductive Result (α : Type) where
  | ok (a : α) (s : State)
  | threw (e : Error) (s : State)

/-- The state a member function ends in. -/
def Result.state {α : Type} : Result α → State
  | .ok _ s => s
  | .threw _ s => s

/-- A member function that may read and write the state and may throw. -/
def Op (α : Type) : Type := State → Result α

/-- Return without touching the state. -/
def Op.pure {α : Type} (a : α) : Op α := fun s => .ok a s

/-- Sequencing: an exception thrown by the first part skips the second. -/
def Op.bind {α β : Type} (m : Op α) (f : α → Op β) : Op β := fun s =>
  match m s with
  | .ok a s' => f a s'
  | .threw e s' => .threw e s'

instance : Monad Op where
  pure := Op.pure
  bind := Op.bind

/-- Read the state. -/
def getState : Op State := fun s => .ok s s

/-- Assign to the object's data members. -/
def modifyFb (f : FrameBuffer → FrameBuffer) : Op Unit := fun s =>
  .ok () { s with fb := f s.fb }

/-- Issue a call to bgfx or to the encoder. -/
def call (c : Call) : Op Unit := fun s => .ok () { s with calls := s.calls ++ [c] }

/-- The expression `m_manager.NewViewId()`: the request is issued, and the allocator
either hands out an identifier or throws. -/
def managerNewViewId : Op ViewId := fun s =>
  let s' := { s with calls := s.calls ++ [Call.NewViewId], manager := s.manager.NewViewId.2 }
  match s.manager.NewViewId.1 with
  | some id => .ok id s'
  | none => .threw .viewIdsExhausted s'

/-- The expression `m_viewId.value()`. -/
def viewIdValue : Op ViewId := fun s =>
  match s.fb.m_viewId with
  | some id => .ok id s
  | none => .threw .badOptionalAccess s

/-- Following an encoder pointer; `none` is `nullptr`. -/
def deref (encoder : Option Encoder) : Op Encoder := fun s =>
  match encoder with
  | some e => .ok e s
  | none => .threw .nullEncoder s

/-! ## The member functions of `FrameBuffer` -/

/-- The constructor `FrameBuffer::FrameBuffer`. -/
def FrameBuffer.new (handle : FrameBufferHandle) (width height : Nat)
    (defaultBackBuffer : Bool) (defaultViewPort : ViewPort) : FrameBuffer :=
  { m_handle := handle
    m_width := width
    m_height := height
    m_defaultBackBuffer := defaultBackBuffer
    m_viewId := none
    m_viewPort := defaultViewPort
    m_requestedViewPort := none }

/-- The destructor `FrameBuffer::~FrameBuffer`. -/
def FrameBuffer.destruct : Op Unit := do
  if isValid (← getState).fb.m_handle then
    call (.destroy (← getState).fb.m_handle)

/-- The member `FrameBuffer::Handle`. -/
def FrameBuffer.Handle (self : FrameBuffer) : FrameBufferHandle := self.m_handle

/-- The member `FrameBuffer::Width`; `stats` is what `bgfx::getStats()` points to. -/
def FrameBuffer.Width (self : FrameBuffer) (stats : Stats) : Nat :=
  if self.m_width == 0 then stats.width else self.m_width

/-- The member `FrameBuffer::Height`; `stats` is what `bgfx::getStats()` points to. -/
def FrameBuffer.Height (self : FrameBuffer) (stats : Stats) : Nat :=
  if self.m_height == 0 then stats.height else self.m_height

/-- The member `FrameBuffer::DefaultBackBuffer`. -/
def FrameBuffer.DefaultBackBuffer (self : FrameBuffer) : Bool := self.m_defaultBackBuffer

/-- The member template `FrameBuffer::NewView<doTouch>`.  The call
`bgfx::setViewClear(id, BGFX_CLEAR_NONE)` leaves the other parameters to the defaults
bgfx declares for them: `rgba = 0x000000ff`, `depth = 1.0f`, `stencil = 0`. -/
def NewView (doTouch : Bool) (encoder : Option Encoder) (viewPort : ViewPort) : Op Unit := do
  let id ← managerNewViewId
  modifyFb fun fb => { fb with m_viewId := some id }
  modifyFb fun fb => { fb with m_viewPort := viewPort }
  call (.setViewMode (← viewIdValue) .Sequential)
  call (.setViewClear (← viewIdValue) BGFX_CLEAR_NONE 0x000000ff Float32.one 0)
  call (.setViewFrameBuffer (← viewIdValue) (← getState).fb.m_handle)
  let s ← getState
  call (.setViewRect (← viewIdValue)
    (scaleToPixels s.fb.m_viewPort.X (s.fb.Width s.stats))
    (scaleToPixels s.fb.m_viewPort.Y (s.fb.Height s.stats))
    (scaleToPixels s.fb.m_viewPort.Width (s.fb.Width s.stats))
    (scaleToPixels s.fb.m_viewPort.Height (s.fb.Height s.stats)))
  if doTouch then
    call (.touch (← deref encoder) (← viewIdValue))

/-- The condition `m_requestedViewPort.has_value() && !m_requestedViewPort->Equals(m_viewPort)`
tested by `FrameBuffer::Submit`. -/
def requestedDiffers (self : FrameBuffer) : Bool :=
  match self.m_requestedViewPort with
  | some requested => !requested.Equals self.m_viewPort
  | none => false

/-- The expression `m_requestedViewPort.value()`. -/
def requestedViewPortValue : Op ViewPort := fun s =>
  match s.fb.m_requestedViewPort with
  | some requested => .ok requested s
  | none => .threw .badOptionalAccess s

section Members

/- `defaultViewPort` is the value `ViewPort{}` of a default-constructed `ViewPort`.
Its member initialisers are in `FrameBuffer.h`, which is not among the sources, so
the value is left open: every member function that writes `{}` takes it as its
first argument. -/
variable (defaultViewPort : ViewPort)

/-- The member `FrameBuffer::Clear`. -/
def Clear (encoder : Encoder) (flags rgba : Nat) (depth : Float32) (stencil : Nat) :
    Op Unit := do
  NewView true (some encoder) defaultViewPort
  call (.setViewClear (← viewIdValue) flags rgba depth stencil)

/-- The member `FrameBuffer::SetViewPort`; the encoder is not used. -/
def SetViewPort (_encoder : Encoder) (x y width height : Float32) : Op Unit :=
  modifyFb fun fb => { fb with m_requestedViewPort := some ⟨x, y, width, height⟩ }

/-- The member `FrameBuffer::Submit`; the third argument of `encoder->submit` is the
sort depth `0`. -/
def Submit (encoder : Encoder) (programHandle : ProgramHandle) (flags : Nat) : Op Unit := do
  if requestedDiffers (← getState).fb then
    NewView false (some encoder) (← requestedViewPortValue)
  else if !(← getState).fb.m_viewId.isSome then
    NewView false (some encoder) defaultViewPort
  call (.submit encoder (← viewIdValue) programHandle 0 flags)

/-- The member `FrameBuffer::Blit`. -/
def Blit (encoder : Encoder) (dst : TextureHandle) (dstX dstY : Nat) (src : TextureHandle)
    (srcX srcY width height : Nat) : Op Unit := do
  NewView false (some encoder) defaultViewPort
  call (.blit encoder (← viewIdValue) dst dstX dstY src srcX srcY width height)

/-- The member `FrameBuffer::SetStencil`. -/
def SetStencil (encoder : Encoder) (stencilState : Nat) : Op Unit :=
  call (.setStencil encoder stencilState)

/-- The member `FrameBuffer::Reset`. -/
def Reset : Op Unit := do
  modifyFb fun fb => { fb with m_viewId := none }
  modifyFb fun fb => { fb with m_viewPort := defaultViewPort }
  modifyFb fun fb => { fb with m_requestedViewPort := none }

/-- The member `FrameBuffer::AcquireNewViewId`. -/
def AcquireNewViewId : Op Unit := do
  NewView false none (← getState).fb.m_viewPort

/-! ## Sequences of public operations -/

/-- One call of a public member function that changes the object, with its arguments. -/
inductive Operation where
  | Clear (encoder : Encoder) (flags rgba : Nat) (depth : Float32) (stencil : Nat)
  | SetViewPort (encoder : Encoder) (x y width height : Float32)
  | Submit (encoder : Encoder) (programHandle : ProgramHandle) (flags : Nat)
  | Blit (encoder : Encoder) (dst : TextureHandle) (dstX dstY : Nat) (src : TextureHandle)
      (srcX srcY width height : Nat)
  | SetStencil (encoder : Encoder) (stencilState : Nat)
  | Reset
  | AcquireNewViewId
  deriving DecidableEq

/-- Perform one call. -/
def Operation.run : Operation → Op Unit
  | .Clear encoder flags rgba depth stencil =>
      Babylon.Clear defaultViewPort encoder flags rgba depth stencil
  | .SetViewPort encoder x y width height => Babylon.SetViewPort encoder x y width height
  | .Submit encoder programHandle flags =>
      Babylon.Submit defaultViewPort encoder programHandle flags
  | .Blit encoder dst dstX dstY src srcX srcY width height =>
      Babylon.Blit defaultViewPort encoder dst dstX dstY src srcX srcY width height
  | .SetStencil encoder stencilState => Babylon.SetStencil encoder stencilState
  | .Reset => Babylon.Reset defaultViewPort
  | .AcquireNewViewId => Babylon.AcquireNewViewId

/-- Perform calls one after the other; a call that throws ends the sequence. -/
def runAll : List Operation → Op Unit
  | [] => pure ()
  | op :: ops => do
      op.run defaultViewPort
      runAll ops

/-- The objects a client can hold: a freshly constructed one, or one on which a
public member function has been called (whether it returned or threw), with
whatever the allocator and the swap chain were at the time. -/
inductive Reachable : FrameBuffer → Prop where
  | new (handle : FrameBufferHandle) (width height : Nat) (defaultBackBuffer : Bool) :
      Reachable (FrameBuffer.new handle width height defaultBackBuffer defaultViewPort)
  | step (s : State) (op : Operation) :
      Reachable s.fb → Reachable (op.run defaultViewPort s).state.fb

end Members

/-- The four calls with which `NewView` configures view `id` for viewport `viewPort`
of the object `self`, the swap chain being as `stats` says. -/
def viewSetup (self : FrameBuffer) (stats : Stats) (id : ViewId) (viewPort : ViewPort) :
    List Call :=
  [ .setViewMode id .Sequential,
    .setViewClear id BGFX_CLEAR_NONE 0x000000ff Float32.one 0,
    .setViewFrameBuffer id self.m_handle,
    .setViewRect id
      (scaleToPixels viewPort.X (self.Width stats))
      (scaleToPixels viewPort.Y (self.Height stats))
      (scaleToPixels viewPort.Width (self.Width stats))
      (scaleToPixels viewPort.Height (self.Height stats)) ]

/-! ## Observations on the object and on the calls issued -/

/-- The property that an object without a view has the default viewport committed. -/
def UnassignedIsDefault (defaultViewPort : ViewPort) (self : FrameBuffer) : Prop :=
  self.m_viewId = none → self.m_viewPort = defaultViewPort

/-- The clear parameters `(flags, rgba, depth, stencil)` that bgfx holds for view `id`
after `calls`: those of the last `bgfx::setViewClear` issued for `id`, if any. -/
def viewClearOf (id : ViewId) (calls : List Call) :
    Option (Nat × Nat × Float32 × Nat) :=
  calls.foldl
    (fun held c =>
      match c with
      | .setViewClear i flags rgba depth stencil =>
          if i = id then some (flags, rgba, depth, stencil) else held
      | _ => held)
    none

/-- Whether a call is an `encoder->touch`. -/
def Call.isTouch : Call → Bool
  | .touch _ _ => true
  | _ => false

/-- Whether a call goes through an encoder. -/
def Call.isEncoderCall : Call → Bool
  | .touch _ _ => true
  | .submit _ _ _ _ _ => true
  | .blit _ _ _ _ _ _ _ _ _ _ => true
  | .setStencil _ _ => true
  | _ => false

/-- Whether an operation is a `SetViewPort` or a `SetStencil`. -/
def Operation.isSetViewPortOrSetStencil : Operation → Bool
  | .SetViewPort _ _ _ _ _ => true
  | .SetStencil _ _ => true
  | _ => false

/-- Whether an operation is a `SetViewPort`. -/
def Operation.isSetViewPort : Operation → Bool
  | .SetViewPort _ _ _ _ _ => true
  | _ => false

/-- Whether an operation is a `Clear` or a `Blit`. -/
def Operation.isClearOrBlit : Operation → Bool
  | .Clear _ _ _ _ _ => true
  | .Blit _ _ _ _ _ _ _ _ _ => true
  | _ => false

/-- Whether an operation is a `Clear`, a `Submit`, a `Blit` or an `AcquireNewViewId`. -/
def Operation.acquires : Operation → Bool
  | .Clear _ _ _ _ _ => true
  | .Submit _ _ _ => true
  | .Blit _ _ _ _ _ _ _ _ _ => true
  | .AcquireNewViewId => true
  | _ => false

/-- The objects reached from construction by a sequence of public calls that have all
returned, together with the calls made, oldest first; the allocator and the swap
chain may be anything at each call. -/
inductive SuccessfulRun (defaultViewPort : ViewPort) : List Operation → FrameBuffer → Prop where
  | new (handle : FrameBufferHandle) (width height : Nat) (defaultBackBuffer : Bool) :
      SuccessfulRun defaultViewPort []
        (FrameBuffer.new handle width height defaultBackBuffer defaultViewPort)
  | step {ops : List Operation} (s s' : State) (op : Operation) :
      SuccessfulRun defaultViewPort ops s.fb →
      op.run defaultViewPort s = .ok () s' →
      SuccessfulRun defaultViewPort (ops ++ [op]) s'.fb

/-- The pixel rectangle `(x, y, width, height)` that `NewView` computes for `viewPort`
on the object `self`, the swap chain being as `stats` says. -/
def rectFor (self : FrameBuffer) (stats : Stats) (viewPort : ViewPort) :
    Nat × Nat × Nat × Nat :=
  (scaleToPixels viewPort.X (self.Width stats),
   scaleToPixels viewPort.Y (self.Height stats),
   scaleToPixels viewPort.Width (self.Width stats),
   scaleToPixels viewPort.Height (self.Height stats))

/-- Whether a call is a `bgfx::setViewRect` for view `id`. -/
def Call.setsRectOf (id : ViewId) : Call → Bool
  | .setViewRect i _ _ _ _ => i == id
  | _ => false

/-- The rectangle bgfx holds for view `id` once call `c` is made, `held` being the one
it held before: a `bgfx::setViewRect` for `id` replaces it. -/
def rectAfter (id : ViewId) (held : Option (Nat × Nat × Nat × Nat)) (c : Call) :
    Option (Nat × Nat × Nat × Nat) :=
  match c with
  | .setViewRect i x y width height => if i = id then some (x, y, width, height) else held
  | _ => held

/-- The rectangle `(x, y, width, height)` that bgfx holds for view `id` after `calls`:
that of the last `bgfx::setViewRect` issued for `id`, if any. -/
def viewRectOf (id : ViewId) (calls : List Call) : Option (Nat × Nat × Nat × Nat) :=
  calls.foldl (rectAfter id) none

/-- The states of the whole system that a client can bring about: a target is
constructed while the collaborators are in any state; a public member function is
called (and returns or throws); or things outside the target move on: the
allocator and the swap chain change, and other users of bgfx issue calls.  Those
other users hold views of their own, which by the allocator's contract are not the
view this target holds, so none of their calls sets the rectangle of this
target's current view. -/
inductive ReachableState (defaultViewPort : ViewPort) : State → Prop where
  | new (handle : FrameBufferHandle) (width height : Nat) (defaultBackBuffer : Bool)
      (manager : FrameBufferManager) (stats : Stats) (calls : List Call) :
      ReachableState defaultViewPort
        { fb := FrameBuffer.new handle width height defaultBackBuffer defaultViewPort
          manager := manager, stats := stats, calls := calls }
  | step (s : State) (op : Operation) :
      ReachableState defaultViewPort s →
      ReachableState defaultViewPort (op.run defaultViewPort s).state
  | world (s : State) (manager : FrameBufferManager) (stats : Stats) (others : List Call) :
      ReachableState defaultViewPort s →
      (∀ v, s.fb.m_viewId = some v → ∀ c ∈ others, c.setsRectOf v = false) →
      ReachableState defaultViewPort
        { s with manager := manager, stats := stats, calls := s.calls ++ others }

/-- Rounding toward zero, the "truncating to integer pixels" of the specification:
the floor of a non-negative number, the ceiling of a negative one. -/
def truncTowardZero (q : ℚ) : ℤ := if 0 ≤ q then ⌊q⌋ else ⌈q⌉

/-! ## Concrete inputs -/

/-- The `float` `0.7f`, that is `11744051 · 2⁻²⁴`. -/
def Float32.sevenTenths : Float32 := .finite false 126 3355443

/-- The `float` `2⁻²³`, the machine epsilon. -/
def Float32.twoPowMinus23 : Float32 := .finite false 104 0

/-- The `float` `2⁻⁵⁰`. -/
def Float32.twoPowMinus50 : Float32 := .finite false 77 0

/-- A default viewport covering the whole target. -/
def fullViewPort : ViewPort := ⟨.zero, .zero, .one, .one⟩

/-- The lower right quarter of the target. -/
def quarterViewPort : ViewPort := ⟨.half, .half, .half, .half⟩

/-- A viewport whose `X` is the machine epsilon `2⁻²³`. -/
def epsilonXViewPort : ViewPort := ⟨.twoPowMinus23, .zero, .one, .one⟩

/-- A viewport whose `X` is `2⁻⁵⁰`. -/
def tinyXViewPort : ViewPort := ⟨.twoPowMinus50, .zero, .one, .one⟩

/-- A viewport whose `X` is NaN. -/
def nanViewPort : ViewPort := ⟨.nan, .zero, .one, .one⟩

/-- A viewport starting at `0.7f` of the width. -/
def sevenTenthsViewPort : ViewPort := ⟨.sevenTenths, .zero, .one, .one⟩

/-- A freshly constructed target of the swap chain's size, with an allocator that
has handed out view 0 and will hand out views 1 and 2. -/
def freshState : State :=
  { fb := FrameBuffer.new 5 0 0 false fullViewPort
    manager := { upcoming := [some 1, some 2], live := [0] }
    stats := { width := 800, height := 600 }
    calls := [] }

/-- A target drawing into view 0 with the default viewport. -/
def assignedState : State :=
  { freshState with fb := { freshState.fb with m_viewId := some 0 } }

/-- A target drawing into view 0 with the default viewport committed and the lower
right quarter pending. -/
def pendingQuarterState : State :=
  { assignedState with
    fb := { assignedState.fb with m_requestedViewPort := some quarterViewPort } }

/-- A default-surface target that was nevertheless given the valid handle 5. -/
def defaultSurfaceValidHandleState : State :=
  { fb := FrameBuffer.new 5 0 0 true fullViewPort
    manager := { upcoming := [some 1, some 2], live := [0] }
    stats := { width := 800, height := 600 }
    calls := [] }

/-- A default-surface target with the invalid handle. -/
def defaultSurfaceState : State :=
  { fb := FrameBuffer.new kInvalidHandle 0 0 true fullViewPort
    manager := { upcoming := [some 1, some 2], live := [0] }
    stats := { width := 800, height := 600 }
    calls := [] }

/-- A target drawing into view 0 whose allocator has no identifier left. -/
def exhaustedState : State :=
  { assignedState with manager := { upcoming := [], live := [0] } }

/-- The state a freshly constructed target is in after a `Clear` that was given view 1. -/
def clearedState : State :=
  (Clear fullViewPort 7 3 255 Float32.one 0 freshState).state

/-- The state a freshly constructed target is in after
`SetViewPort(0.5f, 0.5f, 0.5f, 0.5f)`. -/
def quarterPendingFreshState : State :=
  (SetViewPort 7 Float32.half Float32.half Float32.half Float32.half freshState).state

/-- The state a freshly constructed target is in after `SetViewPort(NaN, 0, 1, 1)`. -/
def nanPendingState : State :=
  (SetViewPort 7 Float32.nan Float32.zero Float32.one Float32.one freshState).state

/-- The state a freshly constructed target is in after `SetViewPort(0.7f, 0, 1, 1)`. -/
def sevenTenthsPendingState : State :=
  (SetViewPort 7 Float32.sevenTenths Float32.zero Float32.one Float32.one freshState).state

/-! ## Rounding -/

/-- Rounding to the nearest integer never goes below an integer that is below. -/
theorem le_roundHalfEven {x : ℚ} {k : ℤ} (h : (k : ℚ) ≤ x) : k ≤ roundHalfEven x := by
  have hf : k ≤ ⌊x⌋ := Int.le_floor.2 h
  unfold roundHalfEven
  split_ifs <;> omega

/-- Rounding to the nearest integer never goes above an integer that is above. -/
theorem roundHalfEven_le {x : ℚ} {k : ℤ} (h : x ≤ (k : ℚ)) : roundHalfEven x ≤ k := by
  have hf : ⌊x⌋ ≤ k := Int.floor_le_floor h |>.trans (by simp)
  rcases hf.lt_or_eq with hlt | heq
  · unfold roundHalfEven
    split_ifs <;> omega
  · have hx : x = (⌊x⌋ : ℚ) := le_antisymm (by rw [heq]; exact h) (Int.floor_le x)
    unfold roundHalfEven
    rw [if_pos (by rw [← hx, sub_self]; norm_num)]
    exact hf

/-- A number less than a half away from an integer rounds to that integer. -/
theorem roundHalfEven_eq_of_near {x : ℚ} {n : ℤ} (h : |x - n| < 1 / 2) :
    roundHalfEven x = n := by
  rw [abs_lt] at h
  have h1 : (n : ℚ) - 1 < x := by linarith [h.1]
  have h2 : x < (n : ℚ) + 1 := by linarith [h.2]
  have hf : ⌊x⌋ = n ∨ ⌊x⌋ = n - 1 := by
    have ha : n - 1 ≤ ⌊x⌋ := Int.le_floor.2 (by push_cast; linarith)
    have hb : ⌊x⌋ < n + 1 := Int.floor_lt.2 (by push_cast; linarith)
    omega
  unfold roundHalfEven
  rcases hf with hf | hf
  · rw [hf, if_pos (by linarith [h.2])]
  · rw [hf]
    push_cast
    rw [if_neg (by linarith [h.1]), if_pos (by linarith [h.1])]
    ring

/-- Zero rounds to zero. -/
theorem FloatValue.round_zero : FloatValue.round 0 = .fin 0 := by
  simp [FloatValue.round]

/-- The machine epsilon is `2⁻²³`. -/
theorem epsilon_eq : epsilon = 2 ^ (-23 : ℤ) := by
  norm_num [epsilon]

/-- Epsilon is positive. -/
theorem epsilon_pos : 0 < epsilon := by norm_num [epsilon]

/-- A number of magnitude epsilon or more rounds to a `float` of magnitude epsilon or
more, or to an infinity: its absolute value is not below epsilon. -/
theorem FloatValue.round_far {q : ℚ} (h : epsilon ≤ |q|) :
    (FloatValue.round q).abs.lt (.fin epsilon) = false := by
  rw [epsilon_eq] at h ⊢
  have hq : q ≠ 0 := by
    rintro rfl
    rw [abs_zero] at h
    exact absurd h (not_le.2 (by positivity))
  have hpos : 0 < |q| := abs_pos.2 hq
  have hlog : (-23 : ℤ) ≤ Int.log 2 |q| :=
    (Int.zpow_le_iff_le_log (by norm_num) hpos).1 (by exact_mod_cast h)
  have hmax : max (Int.log 2 |q|) (-126) = Int.log 2 |q| := max_eq_left (by omega)
  have hle : (2 : ℚ) ^ Int.log 2 |q| ≤ |q| := by
    have := Int.zpow_log_le_self (b := 2) (by norm_num) hpos
    exact_mod_cast this
  have hulp : (0 : ℚ) < 2 ^ (Int.log 2 |q| - 23) := by positivity
  have hbig : (2 : ℚ) ^ (-23 : ℤ) ≤
      |(roundHalfEven (q / 2 ^ (Int.log 2 |q| - 23)) : ℚ) * 2 ^ (Int.log 2 |q| - 23)| := by
    have hscale : (2 : ℚ) ^ (23 : ℤ) * 2 ^ (Int.log 2 |q| - 23) = 2 ^ Int.log 2 |q| := by
      rw [← zpow_add₀ (by norm_num : (2 : ℚ) ≠ 0)]
      congr 1
      ring
    have hx : ((8388608 : ℤ) : ℚ) ≤ |q / 2 ^ (Int.log 2 |q| - 23)| := by
      rw [abs_div, abs_of_pos hulp, le_div_iff₀ hulp]
      have : ((8388608 : ℤ) : ℚ) = 2 ^ (23 : ℤ) := by norm_num
      rw [this, hscale]
      exact hle
    have hn : (8388608 : ℤ) ≤ |roundHalfEven (q / 2 ^ (Int.log 2 |q| - 23))| := by
      rcases le_abs'.1 hx with hneg | hpos'
      · have := roundHalfEven_le (x := q / 2 ^ (Int.log 2 |q| - 23)) (k := -8388608)
          (by push_cast at hneg ⊢; linarith)
        exact le_abs'.2 (Or.inl (by omega))
      · have := le_roundHalfEven hpos'
        exact le_abs'.2 (Or.inr this)
    rw [abs_mul, abs_of_pos hulp]
    calc (2 : ℚ) ^ (-23 : ℤ) ≤ 2 ^ Int.log 2 |q| :=
          zpow_le_zpow_right₀ (by norm_num) hlog
      _ = (8388608 : ℚ) * 2 ^ (Int.log 2 |q| - 23) := by
          rw [← hscale]; norm_num
      _ ≤ |(roundHalfEven (q / 2 ^ (Int.log 2 |q| - 23)) : ℚ)| *
            2 ^ (Int.log 2 |q| - 23) := by
          apply mul_le_mul_of_nonneg_right _ hulp.le
          have hcast : ((8388608 : ℤ) : ℚ) ≤
              ((|roundHalfEven (q / 2 ^ (Int.log 2 |q| - 23))| : ℤ) : ℚ) := by
            exact_mod_cast hn
          simpa using hcast
  unfold FloatValue.round
  rw [if_neg hq, hmax]
  split_ifs
  · rfl
  · simp only [FloatValue.abs, FloatValue.lt, decide_eq_false_iff_not, not_lt]
    exact hbig

/-- How a number in the binade of `2^e`, at least `2⁻¹²⁶`, rounds: to `n · 2^(e - 23)`
when `n` is the integer nearest to the number counted in units of `2^(e - 23)`, and
that is below `2¹²⁸`. -/
theorem FloatValue.round_eq {q : ℚ} (e n : ℤ) (hlo : (2 : ℚ) ^ e ≤ |q|)
    (hhi : |q| < (2 : ℚ) ^ (e + 1)) (he : -126 ≤ e)
    (hn : |q / 2 ^ (e - 23) - n| < 1 / 2)
    (hfin : |(n : ℚ) * 2 ^ (e - 23)| < 2 ^ (128 : ℤ)) :
    FloatValue.round q = .fin ((n : ℚ) * 2 ^ (e - 23)) := by
  have hpos : 0 < |q| := lt_of_lt_of_le (by positivity) hlo
  have hq : q ≠ 0 := abs_pos.1 hpos
  have h1 : e ≤ Int.log 2 |q| :=
    (Int.zpow_le_iff_le_log (by norm_num) hpos).1 (by exact_mod_cast hlo)
  have h2 : Int.log 2 |q| < e + 1 :=
    (Int.lt_zpow_iff_log_lt (by norm_num) hpos).1 (by exact_mod_cast hhi)
  have hlog : Int.log 2 |q| = e := by omega
  unfold FloatValue.round
  rw [if_neg hq, hlog, max_eq_left he, roundHalfEven_eq_of_near hn, if_neg (not_le.2 hfin)]

/-- A number less than a half above an integer does not round above it. -/
theorem roundHalfEven_le_of_lt_half {x : ℚ} {k : ℤ} (h : x < (k : ℚ) + 1 / 2) :
    roundHalfEven x ≤ k := by
  by_cases hx : x ≤ (k : ℚ)
  · exact roundHalfEven_le hx
  · have hfloor : ⌊x⌋ = k := Int.floor_eq_iff.2 ⟨(not_le.1 hx).le, by linarith⟩
    unfold roundHalfEven
    rw [hfloor, if_pos (by linarith)]

/-- A number less than a half below an integer does not round below it. -/
theorem le_roundHalfEven_of_half_lt {x : ℚ} {k : ℤ} (h : (k : ℚ) - 1 / 2 < x) :
    k ≤ roundHalfEven x := by
  by_cases hx : (k : ℚ) ≤ x
  · exact le_roundHalfEven hx
  · have hfloor : ⌊x⌋ = k - 1 :=
      Int.floor_eq_iff.2 ⟨by push_cast; linarith, by push_cast; linarith [not_le.1 hx]⟩
    unfold roundHalfEven
    rw [hfloor]
    push_cast
    rw [if_neg (by linarith), if_pos (by linarith)]
    omega

/-- A number of magnitude below `k + 1/2` rounds to an integer of magnitude at most `k`. -/
theorem abs_roundHalfEven_le {x : ℚ} {k : ℤ} (h : |x| < (k : ℚ) + 1 / 2) :
    |roundHalfEven x| ≤ k := by
  rw [abs_lt] at h
  rw [abs_le]
  constructor
  · exact le_roundHalfEven_of_half_lt (by push_cast; linarith [h.1])
  · exact roundHalfEven_le_of_lt_half h.2

/-- A number of magnitude below `epsilon - 2⁻⁴⁸`, the point half way between epsilon and
the `float` before it, rounds to a `float` of magnitude below epsilon. -/
theorem FloatValue.round_near {q : ℚ} (h : |q| < epsilon - 1 / 2 ^ 48) :
    (FloatValue.round q).abs.lt (.fin epsilon) = true := by
  by_cases hq : q = 0
  · subst hq
    simp [FloatValue.round_zero, FloatValue.abs, FloatValue.lt, epsilon_pos]
  have hpos : 0 < |q| := abs_pos.2 hq
  have hlt : |q| < (2 : ℚ) ^ (-23 : ℤ) := by
    rw [← epsilon_eq]
    linarith [show (0 : ℚ) < 1 / 2 ^ 48 by positivity]
  have hlog : Int.log 2 |q| < -23 :=
    (Int.lt_zpow_iff_log_lt (by norm_num) hpos).1 (by exact_mod_cast hlt)
  have hup : |q| < (2 : ℚ) ^ (Int.log 2 |q| + 1) := by
    have := Int.lt_zpow_succ_log_self (b := 2) (by norm_num) |q|
    exact_mod_cast this
  -- the exponent of the spacing
  obtain ⟨e, he, hle, hbin⟩ : ∃ e : ℤ, max (Int.log 2 |q|) (-126) = e ∧ e ≤ -24 ∧
      |q| < (2 : ℚ) ^ (e + 1) := by
    refine ⟨_, rfl, by omega, ?_⟩
    refine lt_of_lt_of_le hup (zpow_le_zpow_right₀ (by norm_num) ?_)
    have := le_max_left (Int.log 2 |q|) (-126)
    omega
  have hulp : (0 : ℚ) < 2 ^ (e - 23) := by positivity
  have hsmall : |(roundHalfEven (q / 2 ^ (e - 23)) : ℚ) * 2 ^ (e - 23)| < epsilon := by
    rw [abs_mul, abs_of_pos hulp]
    rcases hle.lt_or_eq with hlt24 | heq24
    · -- spacing below 2⁻⁴⁷: the result is at most 2^(e+1) ≤ 2⁻²⁴
      have hx : |q / 2 ^ (e - 23)| < ((16777216 : ℤ) : ℚ) + 1 / 2 := by
        rw [abs_div, abs_of_pos hulp, div_lt_iff₀ hulp]
        have hscale : (2 : ℚ) ^ (e + 1) = 16777216 * 2 ^ (e - 23) := by
          have : (16777216 : ℚ) = 2 ^ (24 : ℤ) := by norm_num
          rw [this, ← zpow_add₀ (by norm_num : (2 : ℚ) ≠ 0)]
          congr 1
          ring
        push_cast
        nlinarith [hbin, hscale, hulp]
      have hn := abs_roundHalfEven_le hx
      have hn' : |(roundHalfEven (q / 2 ^ (e - 23)) : ℚ)| ≤ 16777216 := by
        have : ((|roundHalfEven (q / 2 ^ (e - 23))| : ℤ) : ℚ) ≤ ((16777216 : ℤ) : ℚ) := by
          exact_mod_cast hn
        simpa using this
      have hpow : (2 : ℚ) ^ (e - 23) ≤ 2 ^ (-48 : ℤ) :=
        zpow_le_zpow_right₀ (by norm_num) (by omega)
      calc |(roundHalfEven (q / 2 ^ (e - 23)) : ℚ)| * 2 ^ (e - 23)
          ≤ 16777216 * 2 ^ (-48 : ℤ) :=
            mul_le_mul hn' hpow hulp.le (by norm_num)
        _ < epsilon := by norm_num [epsilon]
    · -- spacing 2⁻⁴⁷: the result is at most the float before epsilon
      subst heq24
      have hx : |q / 2 ^ ((-24 : ℤ) - 23)| < ((16777215 : ℤ) : ℚ) + 1 / 2 := by
        rw [abs_div, abs_of_pos hulp, div_lt_iff₀ hulp]
        have : |q| < 1 / 2 ^ 23 - 1 / 2 ^ 48 := by simpa [epsilon] using h
        norm_num at this ⊢
        linarith
      have hn := abs_roundHalfEven_le hx
      have hn' : |(roundHalfEven (q / 2 ^ ((-24 : ℤ) - 23)) : ℚ)| ≤ 16777215 := by
        have : ((|roundHalfEven (q / 2 ^ ((-24 : ℤ) - 23))| : ℤ) : ℚ) ≤
            ((16777215 : ℤ) : ℚ) := by
          exact_mod_cast hn
        simpa using this
      calc |(roundHalfEven (q / 2 ^ ((-24 : ℤ) - 23)) : ℚ)| * 2 ^ ((-24 : ℤ) - 23)
          ≤ 16777215 * 2 ^ ((-24 : ℤ) - 23) :=
            mul_le_mul_of_nonneg_right hn' hulp.le
        _ < epsilon := by norm_num [epsilon]
  unfold FloatValue.round
  rw [if_neg hq, he, if_neg (not_le.2 (lt_trans hsmall (by norm_num [epsilon])))]
  simpa [FloatValue.abs, FloatValue.lt] using hsmall

/-! ## Stored floats -/

/-- A finite stored `float` reads as the number it stands for. -/
theorem Float32.value_of_isFinite {x : Float32} (h : x.isFinite = true) :
    x.value = .fin x.toRat := by
  cases x with
  | finite negative exponent fraction => rfl
  | infinite negative => cases h
  | nan => cases h

/-- The difference of a finite `float` with itself is below epsilon. -/
theorem FloatValue.sub_self_lt_epsilon (x : ℚ) :
    ((FloatValue.fin x).sub (.fin x)).abs.lt (.fin epsilon) = true := by
  simp [FloatValue.sub, FloatValue.round_zero, FloatValue.abs, FloatValue.lt, epsilon_pos]

/-- The difference of two finite `float`s that stand for numbers epsilon or more apart
is not below epsilon. -/
theorem FloatValue.sub_far_not_lt_epsilon {x y : ℚ} (h : epsilon ≤ |x - y|) :
    ((FloatValue.fin x).sub (.fin y)).abs.lt (.fin epsilon) = false := by
  simpa [FloatValue.sub] using FloatValue.round_far h

/-- The difference of two finite `float`s that stand for numbers less than
`epsilon - 2⁻⁴⁸` apart is below epsilon. -/
theorem FloatValue.sub_near_lt_epsilon {x y : ℚ} (h : |x - y| < epsilon - 1 / 2 ^ 48) :
    ((FloatValue.fin x).sub (.fin y)).abs.lt (.fin epsilon) = true := by
  simpa [FloatValue.sub] using FloatValue.round_near h

/-! ## ViewPort.Equals -/

/-- A viewport with no infinite or NaN member equals itself. -/
theorem ViewPort.Equals_self (a : ViewPort) (h : a.isFinite = true) : a.Equals a = true := by
  simp only [ViewPort.isFinite, Bool.and_eq_true] at h
  obtain ⟨⟨⟨hx, hy⟩, hw⟩, hh⟩ := h
  simp [ViewPort.Equals, Float32.value_of_isFinite hx, Float32.value_of_isFinite hy,
    Float32.value_of_isFinite hw, Float32.value_of_isFinite hh,
    FloatValue.sub_self_lt_epsilon]

/-- Two viewports with a pair of finite members that stand for numbers epsilon or more
apart are not equal. -/
theorem ViewPort.Equals_eq_false_of_far (a b : ViewPort)
    (h : (a.X.isFinite = true ∧ b.X.isFinite = true ∧ epsilon ≤ |a.X.toRat - b.X.toRat|) ∨
      (a.Y.isFinite = true ∧ b.Y.isFinite = true ∧ epsilon ≤ |a.Y.toRat - b.Y.toRat|) ∨
      (a.Width.isFinite = true ∧ b.Width.isFinite = true ∧
        epsilon ≤ |a.Width.toRat - b.Width.toRat|) ∨
      (a.Height.isFinite = true ∧ b.Height.isFinite = true ∧
        epsilon ≤ |a.Height.toRat - b.Height.toRat|)) :
    a.Equals b = false := by
  unfold ViewPort.Equals
  rcases h with ⟨ha, hb, h⟩ | ⟨ha, hb, h⟩ | ⟨ha, hb, h⟩ | ⟨ha, hb, h⟩
  · rw [Float32.value_of_isFinite ha, Float32.value_of_isFinite hb,
      FloatValue.sub_far_not_lt_epsilon h]
    simp
  · rw [Float32.value_of_isFinite ha, Float32.value_of_isFinite hb,
      FloatValue.sub_far_not_lt_epsilon h]
    simp
  · rw [Float32.value_of_isFinite ha, Float32.value_of_isFinite hb,
      FloatValue.sub_far_not_lt_epsilon h]
    simp
  · rw [Float32.value_of_isFinite ha, Float32.value_of_isFinite hb,
      FloatValue.sub_far_not_lt_epsilon h]
    simp

/-- Two viewports with finite members that stand for numbers less than
`epsilon - 2⁻⁴⁸` apart, member by member, are equal. -/
theorem ViewPort.Equals_eq_true_of_near (a b : ViewPort) (ha : a.isFinite = true)
    (hb : b.isFinite = true)
    (hx : |a.X.toRat - b.X.toRat| < epsilon - 1 / 2 ^ 48)
    (hy : |a.Y.toRat - b.Y.toRat| < epsilon - 1 / 2 ^ 48)
    (hw : |a.Width.toRat - b.Width.toRat| < epsilon - 1 / 2 ^ 48)
    (hh : |a.Height.toRat - b.Height.toRat| < epsilon - 1 / 2 ^ 48) :
    a.Equals b = true := by
  simp only [ViewPort.isFinite, Bool.and_eq_true] at ha hb
  obtain ⟨⟨⟨hax, hay⟩, haw⟩, hah⟩ := ha
  obtain ⟨⟨⟨hbx, hby⟩, hbw⟩, hbh⟩ := hb
  simp [ViewPort.Equals, Float32.value_of_isFinite hax, Float32.value_of_isFinite hay,
    Float32.value_of_isFinite haw, Float32.value_of_isFinite hah,
    Float32.value_of_isFinite hbx, Float32.value_of_isFinite hby,
    Float32.value_of_isFinite hbw, Float32.value_of_isFinite hbh,
    FloatValue.sub_near_lt_epsilon hx, FloatValue.sub_near_lt_epsilon hy,
    FloatValue.sub_near_lt_epsilon hw, FloatValue.sub_near_lt_epsilon hh]

/-! ## Particular floats -/

/-- The `float` `0.0f` stands for 0. -/
theorem Float32.toRat_zero : Float32.zero.toRat = 0 := by
  simp [Float32.toRat, Float32.zero]

/-- The `float` `1.0f` stands for 1. -/
theorem Float32.toRat_one : Float32.one.toRat = 1 := by
  have h : ((127 : Fin 255) : ℕ) = 127 := rfl
  simp only [Float32.toRat, Float32.one, h]
  norm_num

/-- The `float` `0.5f` stands for a half. -/
theorem Float32.toRat_half : Float32.half.toRat = 1 / 2 := by
  have h : ((126 : Fin 255) : ℕ) = 126 := rfl
  simp only [Float32.toRat, Float32.half, h]
  norm_num

/-- The `float` `0.7f` stands for `11744051 / 2²⁴`, a little below seven tenths. -/
theorem Float32.toRat_sevenTenths : Float32.sevenTenths.toRat = 11744051 / 16777216 := by
  have h : ((126 : Fin 255) : ℕ) = 126 := rfl
  have h' : ((3355443 : Fin 8388608) : ℕ) = 3355443 := rfl
  simp only [Float32.toRat, Float32.sevenTenths, h, h']
  norm_num

/-- The `float` `2⁻²³` stands for epsilon. -/
theorem Float32.toRat_twoPowMinus23 : Float32.twoPowMinus23.toRat = epsilon := by
  have h : ((104 : Fin 255) : ℕ) = 104 := rfl
  simp only [Float32.toRat, Float32.twoPowMinus23, h]
  norm_num [epsilon]

/-- The `float` `2⁻⁵⁰` stands for `2⁻⁵⁰`. -/
theorem Float32.toRat_twoPowMinus50 : Float32.twoPowMinus50.toRat = 1 / 2 ^ 50 := by
  have h : ((77 : Fin 255) : ℕ) = 77 := rfl
  simp only [Float32.toRat, Float32.twoPowMinus50, h]
  norm_num

/-- The lower right quarter does not equal the full viewport. -/
theorem quarterViewPort_Equals_fullViewPort : quarterViewPort.Equals fullViewPort = false := by
  apply ViewPort.Equals_eq_false_of_far
  left
  refine ⟨rfl, rfl, ?_⟩
  show epsilon ≤ |Float32.half.toRat - Float32.zero.toRat|
  rw [Float32.toRat_half, Float32.toRat_zero, sub_zero, abs_of_pos (by norm_num)]
  norm_num [epsilon]

/-! ## Evaluating member functions -/

@[simp] theorem bind_apply {α β : Type} (m : Op α) (f : α → Op β) (s : State) :
    (m >>= f) s = match m s with
      | .ok a s' => f a s'
      | .threw e s' => .threw e s' := rfl

@[simp] theorem pure_apply {α : Type} (a : α) (s : State) : (pure a : Op α) s = .ok a s := rfl

@[simp] theorem getState_apply (s : State) : getState s = .ok s s := rfl

@[simp] theorem modifyFb_apply (f : FrameBuffer → FrameBuffer) (s : State) :
    modifyFb f s = .ok () { s with fb := f s.fb } := rfl

@[simp] theorem call_apply (c : Call) (s : State) :
    call c s = .ok () { s with calls := s.calls ++ [c] } := rfl

@[simp] theorem deref_some (e : Encoder) (s : State) : deref (some e) s = .ok e s := rfl

/-- A request the allocator answers with `id`. -/
theorem managerNewViewId_ok {s : State} {id : ViewId} {rest : List (Option ViewId)}
    (h : s.manager.upcoming = some id :: rest) :
    managerNewViewId s = .ok id
      { s with calls := s.calls ++ [Call.NewViewId],
               manager := { upcoming := rest, live := id :: s.manager.live } } := by
  simp [managerNewViewId, FrameBufferManager.NewViewId, h]

/-- A request the allocator refuses: the exception is thrown with the object untouched. -/
theorem managerNewViewId_threw {s : State} (h : s.manager.NewViewId.1 = none) :
    managerNewViewId s = .threw .viewIdsExhausted
      { s with calls := s.calls ++ [Call.NewViewId], manager := s.manager.NewViewId.2 } := by
  simp [managerNewViewId, h]

/-- The function `NewView` when the allocator answers with `id`: one request, the four
configuration calls for `id`, and a touch exactly when `doTouch` is set. -/
theorem NewView_ok (doTouch : Bool) (encoder : Encoder) (viewPort : ViewPort) {s : State}
    {id : ViewId} {rest : List (Option ViewId)} (h : s.manager.upcoming = some id :: rest) :
    NewView doTouch (some encoder) viewPort s = .ok ()
      { fb := { s.fb with m_viewId := some id, m_viewPort := viewPort }
        manager := { upcoming := rest, live := id :: s.manager.live }
        stats := s.stats
        calls := s.calls ++ (Call.NewViewId :: viewSetup s.fb s.stats id viewPort ++
          (if doTouch then [Call.touch encoder id] else [])) } := by
  cases doTouch <;>
    simp [NewView, managerNewViewId_ok h, viewIdValue, viewSetup, FrameBuffer.Width,
      FrameBuffer.Height]

/-- The instance `NewView<false>` never follows its encoder pointer. -/
theorem NewView_false_ok (encoder : Option Encoder) (viewPort : ViewPort) {s : State}
    {id : ViewId} {rest : List (Option ViewId)} (h : s.manager.upcoming = some id :: rest) :
    NewView false encoder viewPort s = .ok ()
      { fb := { s.fb with m_viewId := some id, m_viewPort := viewPort }
        manager := { upcoming := rest, live := id :: s.manager.live }
        stats := s.stats
        calls := s.calls ++ (Call.NewViewId :: viewSetup s.fb s.stats id viewPort) } := by
  simp [NewView, managerNewViewId_ok h, viewIdValue, viewSetup, FrameBuffer.Width,
    FrameBuffer.Height]

/-- The function `NewView` when the allocator refuses: nothing but the request has happened. -/
theorem NewView_threw (doTouch : Bool) (encoder : Option Encoder) (viewPort : ViewPort)
    {s : State} (h : s.manager.NewViewId.1 = none) :
    NewView doTouch encoder viewPort s = .threw .viewIdsExhausted
      { s with calls := s.calls ++ [Call.NewViewId], manager := s.manager.NewViewId.2 } := by
  simp [NewView, managerNewViewId_threw h]

/-- The allocator either refuses the next request or answers it with an identifier. -/
theorem FrameBufferManager.NewViewId_cases (m : FrameBufferManager) :
    m.NewViewId.1 = none ∨ ∃ id rest, m.upcoming = some id :: rest := by
  unfold FrameBufferManager.NewViewId
  rcases h : m.upcoming with _ | ⟨_ | id, rest⟩ <;> simp

/-! ## The three ways through `Submit` -/

/-- The function `Submit` with a pending viewport that differs from the committed one. -/
theorem Submit_requested (defaultViewPort : ViewPort) (encoder : Encoder)
    (programHandle : ProgramHandle) (flags : Nat) {s : State} {requested : ViewPort}
    {id : ViewId} {rest : List (Option ViewId)}
    (hr : s.fb.m_requestedViewPort = some requested)
    (hne : requested.Equals s.fb.m_viewPort = false)
    (h : s.manager.upcoming = some id :: rest) :
    Submit defaultViewPort encoder programHandle flags s = .ok ()
      { fb := { s.fb with m_viewId := some id, m_viewPort := requested }
        manager := { upcoming := rest, live := id :: s.manager.live }
        stats := s.stats
        calls := s.calls ++ (Call.NewViewId :: viewSetup s.fb s.stats id requested ++
          [Call.submit encoder id programHandle 0 flags]) } := by
  simp [Submit, requestedDiffers, requestedViewPortValue, hr, hne, NewView_ok false _ _ h,
    viewIdValue]

/-- The function `Submit` with no view assigned and no differing pending viewport. -/
theorem Submit_unassigned (defaultViewPort : ViewPort) (encoder : Encoder)
    (programHandle : ProgramHandle) (flags : Nat) {s : State}
    {id : ViewId} {rest : List (Option ViewId)}
    (hd : requestedDiffers s.fb = false) (hv : s.fb.m_viewId = none)
    (h : s.manager.upcoming = some id :: rest) :
    Submit defaultViewPort encoder programHandle flags s = .ok ()
      { fb := { s.fb with m_viewId := some id, m_viewPort := defaultViewPort }
        manager := { upcoming := rest, live := id :: s.manager.live }
        stats := s.stats
        calls := s.calls ++ (Call.NewViewId :: viewSetup s.fb s.stats id defaultViewPort ++
          [Call.submit encoder id programHandle 0 flags]) } := by
  simp [Submit, hd, hv, NewView_ok false _ _ h, viewIdValue]

/-- The function `Submit` with a view assigned and no differing pending viewport. -/
theorem Submit_reuse (defaultViewPort : ViewPort) (encoder : Encoder)
    (programHandle : ProgramHandle) (flags : Nat) {s : State} {id : ViewId}
    (hd : requestedDiffers s.fb = false) (hv : s.fb.m_viewId = some id) :
    Submit defaultViewPort encoder programHandle flags s = .ok ()
      { s with calls := s.calls ++ [Call.submit encoder id programHandle 0 flags] } := by
  simp [Submit, hd, hv, viewIdValue]

/-! ## The other member functions -/

/-- The condition tested by `Submit` holds when a viewport is pending that does not
equal the committed one. -/
theorem requestedDiffers_eq_true_iff (self : FrameBuffer) :
    requestedDiffers self = true ↔
      ∃ requested, self.m_requestedViewPort = some requested ∧
        requested.Equals self.m_viewPort = false := by
  unfold requestedDiffers
  cases self.m_requestedViewPort <;> simp

/-- The function `Submit` with a differing pending viewport when the allocator refuses. -/
theorem Submit_requested_threw (defaultViewPort : ViewPort) (encoder : Encoder)
    (programHandle : ProgramHandle) (flags : Nat) {s : State}
    (hd : requestedDiffers s.fb = true) (h : s.manager.NewViewId.1 = none) :
    Submit defaultViewPort encoder programHandle flags s = .threw .viewIdsExhausted
      { s with calls := s.calls ++ [Call.NewViewId], manager := s.manager.NewViewId.2 } := by
  obtain ⟨requested, hr, -⟩ := (requestedDiffers_eq_true_iff s.fb).1 hd
  simp [Submit, hd, requestedViewPortValue, hr, NewView_threw _ _ _ h]

/-- The function `Submit` with no view assigned when the allocator refuses. -/
theorem Submit_unassigned_threw (defaultViewPort : ViewPort) (encoder : Encoder)
    (programHandle : ProgramHandle) (flags : Nat) {s : State}
    (hd : requestedDiffers s.fb = false) (hv : s.fb.m_viewId = none)
    (h : s.manager.NewViewId.1 = none) :
    Submit defaultViewPort encoder programHandle flags s = .threw .viewIdsExhausted
      { s with calls := s.calls ++ [Call.NewViewId], manager := s.manager.NewViewId.2 } := by
  simp [Submit, hd, hv, NewView_threw _ _ _ h]

/-- The function `Clear` when the allocator answers with `id`. -/
theorem Clear_ok (defaultViewPort : ViewPort) (encoder : Encoder) (flags rgba : Nat)
    (depth : Float32) (stencil : Nat) {s : State} {id : ViewId} {rest : List (Option ViewId)}
    (h : s.manager.upcoming = some id :: rest) :
    Clear defaultViewPort encoder flags rgba depth stencil s = .ok ()
      { fb := { s.fb with m_viewId := some id, m_viewPort := defaultViewPort }
        manager := { upcoming := rest, live := id :: s.manager.live }
        stats := s.stats
        calls := s.calls ++ (Call.NewViewId :: viewSetup s.fb s.stats id defaultViewPort ++
          [Call.touch encoder id, Call.setViewClear id flags rgba depth stencil]) } := by
  simp [Clear, NewView_ok true _ _ h, viewIdValue]

/-- The function `Clear` when the allocator refuses. -/
theorem Clear_threw (defaultViewPort : ViewPort) (encoder : Encoder) (flags rgba : Nat)
    (depth : Float32) (stencil : Nat) {s : State} (h : s.manager.NewViewId.1 = none) :
    Clear defaultViewPort encoder flags rgba depth stencil s = .threw .viewIdsExhausted
      { s with calls := s.calls ++ [Call.NewViewId], manager := s.manager.NewViewId.2 } := by
  simp [Clear, NewView_threw _ _ _ h]

/-- The function `Blit` when the allocator answers with `id`. -/
theorem Blit_ok (defaultViewPort : ViewPort) (encoder : Encoder) (dst : TextureHandle)
    (dstX dstY : Nat) (src : TextureHandle) (srcX srcY width height : Nat) {s : State}
    {id : ViewId} {rest : List (Option ViewId)} (h : s.manager.upcoming = some id :: rest) :
    Blit defaultViewPort encoder dst dstX dstY src srcX srcY width height s = .ok ()
      { fb := { s.fb with m_viewId := some id, m_viewPort := defaultViewPort }
        manager := { upcoming := rest, live := id :: s.manager.live }
        stats := s.stats
        calls := s.calls ++ (Call.NewViewId :: viewSetup s.fb s.stats id defaultViewPort ++
          [Call.blit encoder id dst dstX dstY src srcX srcY width height]) } := by
  simp [Blit, NewView_ok false _ _ h, viewIdValue]

/-- The function `Blit` when the allocator refuses. -/
theorem Blit_threw (defaultViewPort : ViewPort) (encoder : Encoder) (dst : TextureHandle)
    (dstX dstY : Nat) (src : TextureHandle) (srcX srcY width height : Nat) {s : State}
    (h : s.manager.NewViewId.1 = none) :
    Blit defaultViewPort encoder dst dstX dstY src srcX srcY width height s =
      .threw .viewIdsExhausted
        { s with calls := s.calls ++ [Call.NewViewId], manager := s.manager.NewViewId.2 } := by
  simp [Blit, NewView_threw _ _ _ h]

/-- The function `AcquireNewViewId` when the allocator answers with `id`. -/
theorem AcquireNewViewId_ok {s : State} {id : ViewId} {rest : List (Option ViewId)}
    (h : s.manager.upcoming = some id :: rest) :
    AcquireNewViewId s = .ok ()
      { fb := { s.fb with m_viewId := some id }
        manager := { upcoming := rest, live := id :: s.manager.live }
        stats := s.stats
        calls := s.calls ++ (Call.NewViewId :: viewSetup s.fb s.stats id s.fb.m_viewPort) } := by
  simp [AcquireNewViewId, NewView_false_ok _ _ h]

/-- The function `AcquireNewViewId` when the allocator refuses. -/
theorem AcquireNewViewId_threw {s : State} (h : s.manager.NewViewId.1 = none) :
    AcquireNewViewId s = .threw .viewIdsExhausted
      { s with calls := s.calls ++ [Call.NewViewId], manager := s.manager.NewViewId.2 } := by
  simp [AcquireNewViewId, NewView_threw _ _ _ h]

/-- The function `SetViewPort` records the rectangle and does nothing else. -/
theorem SetViewPort_apply (encoder : Encoder) (x y width height : Float32) (s : State) :
    SetViewPort encoder x y width height s = .ok ()
      { s with fb := { s.fb with m_requestedViewPort := some ⟨x, y, width, height⟩ } } := rfl

/-- The function `SetStencil` forwards the stencil state and does nothing else. -/
theorem SetStencil_apply (encoder : Encoder) (stencilState : Nat) (s : State) :
    SetStencil encoder stencilState s = .ok ()
      { s with calls := s.calls ++ [Call.setStencil encoder stencilState] } := rfl

/-- The function `Reset` forgets the view, the committed viewport and the pending viewport. -/
theorem Reset_apply (defaultViewPort : ViewPort) (s : State) :
    Reset defaultViewPort s = .ok ()
      { s with fb := { s.fb with m_viewId := none, m_viewPort := defaultViewPort,
                                 m_requestedViewPort := none } } := rfl

/-! ## What every reachable object satisfies -/

/-- The function `Submit` keeps `UnassignedIsDefault`, whether it returns or throws. -/
theorem Submit_unassignedIsDefault (defaultViewPort : ViewPort) (encoder : Encoder)
    (programHandle : ProgramHandle) (flags : Nat) (s : State)
    (h : UnassignedIsDefault defaultViewPort s.fb) :
    UnassignedIsDefault defaultViewPort
      (Submit defaultViewPort encoder programHandle flags s).state.fb := by
  cases hd : requestedDiffers s.fb
  · cases hv : s.fb.m_viewId with
    | some v => rw [Submit_reuse _ _ _ _ hd hv]; exact h
    | none =>
      rcases s.manager.NewViewId_cases with ha | ⟨id, rest, ha⟩
      · rw [Submit_unassigned_threw _ _ _ _ hd hv ha]; exact h
      · rw [Submit_unassigned _ _ _ _ hd hv ha]; intro hn; simp [Result.state] at hn
  · rcases s.manager.NewViewId_cases with ha | ⟨id, rest, ha⟩
    · rw [Submit_requested_threw _ _ _ _ hd ha]; exact h
    · obtain ⟨requested, hr, hne⟩ := (requestedDiffers_eq_true_iff s.fb).1 hd
      rw [Submit_requested _ _ _ _ hr hne ha]; intro hn; simp [Result.state] at hn

/-- Every public operation keeps `UnassignedIsDefault`, whether it returns or throws. -/
theorem run_unassignedIsDefault (defaultViewPort : ViewPort) (op : Operation)
    (s : State) (h : UnassignedIsDefault defaultViewPort s.fb) :
    UnassignedIsDefault defaultViewPort (op.run defaultViewPort s).state.fb := by
  cases op with
  | Submit encoder programHandle flags => exact Submit_unassignedIsDefault _ _ _ _ s h
  | SetViewPort encoder x y width height => exact h
  | SetStencil encoder stencilState => exact h
  | Reset => intro _; rfl
  | Clear encoder flags rgba depth stencil =>
    rcases s.manager.NewViewId_cases with ha | ⟨id, rest, ha⟩
    · rw [Operation.run, Clear_threw _ _ _ _ _ _ ha]; exact h
    · rw [Operation.run, Clear_ok _ _ _ _ _ _ ha]; intro hn; simp [Result.state] at hn
  | Blit encoder dst dstX dstY src srcX srcY width height =>
    rcases s.manager.NewViewId_cases with ha | ⟨id, rest, ha⟩
    · rw [Operation.run, Blit_threw _ _ _ _ _ _ _ _ _ _ ha]; exact h
    · rw [Operation.run, Blit_ok _ _ _ _ _ _ _ _ _ _ ha]; intro hn; simp [Result.state] at hn
  | AcquireNewViewId =>
    rcases s.manager.NewViewId_cases with ha | ⟨id, rest, ha⟩
    · rw [Operation.run, AcquireNewViewId_threw ha]; exact h
    · rw [Operation.run, AcquireNewViewId_ok ha]; intro hn; simp [Result.state] at hn

/-- Every reachable object without a view has the default viewport committed. -/
theorem Reachable.unassignedIsDefault {defaultViewPort : ViewPort} {self : FrameBuffer}
    (h : Reachable defaultViewPort self) : UnassignedIsDefault defaultViewPort self := by
  induction h with
  | new handle width height defaultBackBuffer => intro _; rfl
  | step s op _ ih => exact run_unassignedIsDefault defaultViewPort op s ih

/-! ## Submit after Submit -/

/-- A `Submit` that has just committed the pending viewport leaves nothing for the next
`Submit` to reallocate for, provided no member of that viewport is an infinity or
NaN. -/
theorem requestedDiffers_after_commit {self : FrameBuffer} {requested : ViewPort}
    (hr : self.m_requestedViewPort = some requested) (hfinite : requested.isFinite = true)
    (id : ViewId) :
    requestedDiffers { self with m_viewId := some id, m_viewPort := requested } = false := by
  simp [requestedDiffers, hr, ViewPort.Equals_self requested hfinite]

/-- A viewport with a NaN member equals no viewport, itself included. -/
theorem nanViewPort_Equals (other : ViewPort) : nanViewPort.Equals other = false := by
  simp [ViewPort.Equals, nanViewPort, Float32.value, FloatValue.sub, FloatValue.abs,
    FloatValue.lt]

/-- C1 (amended): for every object reachable from construction by the public
operations whose pending viewport, if there is one, has no infinite or NaN member,
and an allocator that answers the next request, `Submit` followed directly by
`Submit` forwards both draws to one view identifier `v`: the first `Submit` ends
with the draw into `v`, and the second issues nothing but its draw into `v`, so it
requests no identifier and leaves the object and the allocator as they were. -/
theorem Submit_twice_reuses_view (defaultViewPort : ViewPort) (s : State)
    (encoder : Encoder) (programHandle : ProgramHandle) (flags : Nat)
    (encoder' : Encoder) (programHandle' : ProgramHandle) (flags' : Nat)
    (id : ViewId) (rest : List (Option ViewId))
    (hreach : Reachable defaultViewPort s.fb)
    (hfinite : ∀ requested, s.fb.m_requestedViewPort = some requested →
      requested.isFinite = true)
    (halloc : s.manager.upcoming = some id :: rest) :
    ∃ v s₁,
      Submit defaultViewPort encoder programHandle flags s = .ok () s₁ ∧
      s₁.calls.getLast? = some (Call.submit encoder v programHandle 0 flags) ∧
      Submit defaultViewPort encoder' programHandle' flags' s₁ = .ok ()
        { s₁ with calls := s₁.calls ++ [Call.submit encoder' v programHandle' 0 flags'] } := by
  cases hd : requestedDiffers s.fb
  · cases hv : s.fb.m_viewId with
    | some v =>
      refine ⟨v, _, Submit_reuse _ _ _ _ hd hv, by simp, ?_⟩
      exact Submit_reuse _ _ _ _ hd hv
    | none =>
      have hdef : s.fb.m_viewPort = defaultViewPort := hreach.unassignedIsDefault hv
      refine ⟨id, _, Submit_unassigned _ _ _ _ hd hv halloc, by simp [viewSetup], ?_⟩
      refine Submit_reuse _ _ _ _ ?_ rfl
      rw [← hd, ← hdef]
      rfl
  · obtain ⟨requested, hr, hne⟩ := (requestedDiffers_eq_true_iff s.fb).1 hd
    refine ⟨id, _, Submit_requested _ _ _ _ hr hne halloc, by simp [viewSetup], ?_⟩
    exact Submit_reuse _ _ _ _ (requestedDiffers_after_commit hr (hfinite requested hr) id) rfl

/-- The amended C1 at a freshly constructed target on which the lower right quarter
has been requested: the first `Submit` commits the quarter for view 1, and both
draw into view 1. -/
theorem Submit_twice_reuses_view_witness :
    Reachable fullViewPort quarterPendingFreshState.fb ∧
    (∀ requested, quarterPendingFreshState.fb.m_requestedViewPort = some requested →
      requested.isFinite = true) ∧
    quarterPendingFreshState.manager.upcoming = some 1 :: [some 2] ∧
    ∃ v s₁,
      Submit fullViewPort 7 3 0 quarterPendingFreshState = .ok () s₁ ∧
      s₁.calls.getLast? = some (Call.submit 7 v 3 0 0) ∧
      Submit fullViewPort 7 4 0 s₁ = .ok ()
        { s₁ with calls := s₁.calls ++ [Call.submit 7 v 4 0 0] } :=
  have hreach : Reachable fullViewPort quarterPendingFreshState.fb :=
    Reachable.step freshState
      (Operation.SetViewPort 7 Float32.half Float32.half Float32.half Float32.half)
      (Reachable.new 5 0 0 false)
  have hfinite : ∀ requested,
      quarterPendingFreshState.fb.m_requestedViewPort = some requested →
        requested.isFinite = true := by
    intro requested h
    have h' : quarterViewPort = requested := Option.some.inj h
    rw [← h']
    rfl
  ⟨hreach, hfinite, rfl,
    Submit_twice_reuses_view fullViewPort quarterPendingFreshState 7 3 0 7 4 0 1 [some 2]
      hreach hfinite rfl⟩

/-- C1 as stated fails on a freshly constructed target after `SetViewPort(NaN, 0, 1, 1)`,
a state public calls lead to: the allocator answers both requests, the first
`Submit` commits the pending viewport for view 1 and draws there, and the second
finds the pending viewport not equal to the committed one, because a NaN member
compares unequal to itself, so it requests view 2 and draws there. -/
theorem Submit_twice_reallocates_for_nan_viewport :
    Reachable fullViewPort nanPendingState.fb ∧
    nanPendingState.fb.m_requestedViewPort = some nanViewPort ∧
    nanPendingState.manager.upcoming = [some 1, some 2] ∧
    (∃ s₁ s₂,
      Submit fullViewPort 7 3 0 nanPendingState = .ok () s₁ ∧
      s₁.calls.getLast? = some (Call.submit 7 1 3 0 0) ∧
      Submit fullViewPort 7 3 0 s₁ = .ok () s₂ ∧
      s₂.calls = s₁.calls ++
        (Call.NewViewId :: viewSetup s₁.fb s₁.stats 2 nanViewPort ++
          [Call.submit 7 2 3 0 0])) ∧
    ¬ ∃ v s₁,
      Submit fullViewPort 7 3 0 nanPendingState = .ok () s₁ ∧
      s₁.calls.getLast? = some (Call.submit 7 v 3 0 0) ∧
      Submit fullViewPort 7 3 0 s₁ = .ok ()
        { s₁ with calls := s₁.calls ++ [Call.submit 7 v 3 0 0] } := by
  have hreach : Reachable fullViewPort nanPendingState.fb :=
    Reachable.step freshState
      (Operation.SetViewPort 7 Float32.nan Float32.zero Float32.one Float32.one)
      (Reachable.new 5 0 0 false)
  have e₁ := @Submit_requested fullViewPort 7 3 0 nanPendingState nanViewPort 1 [some 2]
    rfl (nanViewPort_Equals _) rfl
  refine ⟨hreach, rfl, rfl,
    ⟨_, _, e₁, by simp [viewSetup],
      Submit_requested fullViewPort 7 3 0 rfl (nanViewPort_Equals _) rfl, rfl⟩, ?_⟩
  rintro ⟨v, s₁, h₁, -, h₂⟩
  rw [e₁] at h₁
  injection h₁ with _ hs
  have hr : s₁.fb.m_requestedViewPort = some nanViewPort := by rw [← hs]; rfl
  have hm : s₁.manager.upcoming = some 2 :: [] := by rw [← hs]
  rw [Submit_requested fullViewPort 7 3 0 hr (nanViewPort_Equals _) hm] at h₂
  simp [viewSetup] at h₂

/-! ## SetViewPort followed by Submit -/

/-- C2: in every state with a view identifier `v` assigned, `SetViewPort` with a
rectangle that `Equals` the committed viewport followed by `Submit` does not
reallocate: the only call issued is the draw into `v`, so no identifier is
requested and the allocator is as before, and the object differs from before only
in the pending viewport (`m_viewId` and `m_viewPort` are unchanged). -/
theorem SetViewPort_equal_then_Submit_reuses (defaultViewPort : ViewPort) (s : State)
    (encoder : Encoder) (x y width height : Float32)
    (encoder' : Encoder) (programHandle : ProgramHandle) (flags : Nat) (v : ViewId)
    (hv : s.fb.m_viewId = some v)
    (heq : (ViewPort.mk x y width height).Equals s.fb.m_viewPort = true) :
    (SetViewPort encoder x y width height >>= fun _ =>
        Submit defaultViewPort encoder' programHandle flags) s =
      .ok ()
        { s with
          fb := { s.fb with m_requestedViewPort := some ⟨x, y, width, height⟩ }
          calls := s.calls ++ [Call.submit encoder' v programHandle 0 flags] } := by
  rw [bind_apply, SetViewPort_apply]
  exact Submit_reuse _ _ _ _ (by simp [requestedDiffers, heq]) hv

/-- C2 at a target drawing into view 0 with the full viewport committed. -/
theorem SetViewPort_equal_then_Submit_reuses_witness :
    assignedState.fb.m_viewId = some 0 ∧
    (ViewPort.mk Float32.zero Float32.zero Float32.one Float32.one).Equals
      assignedState.fb.m_viewPort = true ∧
    (SetViewPort 7 Float32.zero Float32.zero Float32.one Float32.one >>= fun _ =>
        Submit fullViewPort 7 3 0) assignedState =
      .ok ()
        { assignedState with
          fb := { assignedState.fb with
                  m_requestedViewPort :=
                    some ⟨Float32.zero, Float32.zero, Float32.one, Float32.one⟩ }
          calls := assignedState.calls ++ [Call.submit 7 0 3 0 0] } :=
  ⟨rfl, ViewPort.Equals_self fullViewPort rfl,
    SetViewPort_equal_then_Submit_reuses fullViewPort assignedState 7 Float32.zero
      Float32.zero Float32.one Float32.one 7 3 0 0 rfl (ViewPort.Equals_self fullViewPort rfl)⟩

/-- The allocator's contract gives an identifier that differs from every live one. -/
theorem FrameBufferManager.Unique.ne_of_mem_live {m : FrameBufferManager} (hu : m.Unique)
    {v' v : ViewId} {rest : List (Option ViewId)} (h : m.upcoming = some v' :: rest)
    (hv : v ∈ m.live) : v' ≠ v := by
  simp only [FrameBufferManager.Unique, h, List.filterMap_cons_some (rfl : id (some v') = _),
    List.cons_append, List.nodup_cons, List.mem_append, not_or] at hu
  rintro rfl
  exact hu.1.2 hv

/-- The allocator's contract still holds after a request it has answered. -/
theorem FrameBufferManager.Unique.next {m : FrameBufferManager} (hu : m.Unique)
    {v' : ViewId} {rest : List (Option ViewId)} (h : m.upcoming = some v' :: rest) :
    FrameBufferManager.Unique { upcoming := rest, live := v' :: m.live } := by
  simp only [FrameBufferManager.Unique, h, List.filterMap_cons_some (rfl : id (some v') = _),
    List.cons_append] at hu ⊢
  exact (List.perm_middle.nodup_iff).2 hu

/-- C3: in every state with a view identifier `v` assigned, `SetViewPort` with a
rectangle `r` that does not `Equals` the committed viewport followed by `Submit`
requests exactly one identifier `v'`, configures it for `r`, issues no touch and
draws into `v'`; afterwards `v'` is the current view and `r` the committed
viewport.  When the allocator keeps its contract and `v` is live, `v' ≠ v`. -/
theorem SetViewPort_different_then_Submit_reallocates (defaultViewPort : ViewPort)
    (s : State) (encoder : Encoder) (x y width height : Float32)
    (encoder' : Encoder) (programHandle : ProgramHandle) (flags : Nat)
    (v v' : ViewId) (rest : List (Option ViewId))
    (_hv : s.fb.m_viewId = some v)
    (hne : (ViewPort.mk x y width height).Equals s.fb.m_viewPort = false)
    (halloc : s.manager.upcoming = some v' :: rest)
    (hunique : s.manager.Unique) (hlive : v ∈ s.manager.live) :
    ∃ issued,
      (SetViewPort encoder x y width height >>= fun _ =>
          Submit defaultViewPort encoder' programHandle flags) s =
        .ok ()
          { fb := { s.fb with m_viewId := some v', m_viewPort := ⟨x, y, width, height⟩,
                              m_requestedViewPort := some ⟨x, y, width, height⟩ }
            manager := { upcoming := rest, live := v' :: s.manager.live }
            stats := s.stats
            calls := s.calls ++ issued } ∧
      issued = Call.NewViewId :: viewSetup s.fb s.stats v' ⟨x, y, width, height⟩ ++
        [Call.submit encoder' v' programHandle 0 flags] ∧
      issued.count Call.NewViewId = 1 ∧
      (∀ c ∈ issued, c.isTouch = false) ∧
      v' ≠ v := by
  refine ⟨_, ?_, rfl, ?_, ?_, hunique.ne_of_mem_live halloc hlive⟩
  · have h := @Submit_requested defaultViewPort encoder' programHandle flags
      { s with fb := { s.fb with m_requestedViewPort := some ⟨x, y, width, height⟩ } }
      _ _ _ rfl hne halloc
    simp only [bind_apply, SetViewPort_apply, h]
    simp [viewSetup, FrameBuffer.Width, FrameBuffer.Height]
  · simp [viewSetup]
  · simp [viewSetup, Call.isTouch]

/-- C3 at a target drawing into view 0 with the full viewport committed, when the
lower right quarter is requested. -/
theorem SetViewPort_different_then_Submit_reallocates_witness :
    assignedState.fb.m_viewId = some 0 ∧
    (ViewPort.mk Float32.half Float32.half Float32.half Float32.half).Equals
      assignedState.fb.m_viewPort = false ∧
    assignedState.manager.upcoming = some 1 :: [some 2] ∧
    assignedState.manager.Unique ∧ 0 ∈ assignedState.manager.live ∧
    ∃ s', (SetViewPort 7 Float32.half Float32.half Float32.half Float32.half >>= fun _ =>
        Submit fullViewPort 7 3 0) assignedState = .ok () s' ∧
      s'.fb.m_viewId = some 1 := by
  have hne : (ViewPort.mk Float32.half Float32.half Float32.half Float32.half).Equals
      assignedState.fb.m_viewPort = false := quarterViewPort_Equals_fullViewPort
  have hu : assignedState.manager.Unique := by
    simp [FrameBufferManager.Unique, assignedState, freshState]
  have hl : 0 ∈ assignedState.manager.live := by simp [assignedState, freshState]
  obtain ⟨issued, h, -⟩ := SetViewPort_different_then_Submit_reallocates fullViewPort
    assignedState 7 Float32.half Float32.half Float32.half Float32.half 7 3 0 0 1 [some 2]
    rfl hne rfl hu hl
  exact ⟨rfl, hne, rfl, hu, hl, _, h, rfl⟩

/-! ## Submit after Reset -/

/-- A run of `SetViewPort` and `SetStencil` calls returns, and leaves the view
identifier, the committed viewport, the allocator and the swap-chain size alone. -/
theorem runAll_setViewPort_setStencil (defaultViewPort : ViewPort) (ops : List Operation)
    (hops : ∀ op ∈ ops, op.isSetViewPortOrSetStencil = true) (s : State) :
    ∃ s', runAll defaultViewPort ops s = .ok () s' ∧
      s'.fb.m_viewId = s.fb.m_viewId ∧ s'.fb.m_viewPort = s.fb.m_viewPort ∧
      s'.fb.m_handle = s.fb.m_handle ∧ s'.fb.m_width = s.fb.m_width ∧
      s'.fb.m_height = s.fb.m_height ∧
      s'.manager = s.manager ∧ s'.stats = s.stats := by
  induction ops generalizing s with
  | nil => exact ⟨s, rfl, rfl, rfl, rfl, rfl, rfl, rfl, rfl⟩
  | cons op ops ih =>
    have hrest : ∀ o ∈ ops, o.isSetViewPortOrSetStencil = true :=
      fun o ho => hops o (List.mem_cons_of_mem _ ho)
    have hop := hops op (List.mem_cons_self _ _)
    cases op with
    | SetViewPort encoder x y width height =>
      obtain ⟨s', h, h'⟩ := ih hrest
        { s with fb := { s.fb with m_requestedViewPort := some ⟨x, y, width, height⟩ } }
      exact ⟨s', by simp [runAll, Operation.run, SetViewPort_apply, h], h'⟩
    | SetStencil encoder stencilState =>
      obtain ⟨s', h, h'⟩ := ih hrest
        { s with calls := s.calls ++ [Call.setStencil encoder stencilState] }
      exact ⟨s', by simp [runAll, Operation.run, SetStencil_apply, h], h'⟩
    | _ => simp [Operation.isSetViewPortOrSetStencil] at hop

/-- C4: in every state, after `Reset` and then any number of `SetViewPort` and
`SetStencil` calls (which all return and leave the allocator alone), the next
`Submit` requests exactly one identifier `id`, configures it for some viewport that
it commits, and draws into `id`, which becomes the current view. -/
theorem Reset_then_Submit_acquires (defaultViewPort : ViewPort) (s : State)
    (ops : List Operation) (encoder : Encoder) (programHandle : ProgramHandle) (flags : Nat)
    (id : ViewId) (rest : List (Option ViewId))
    (hops : ∀ op ∈ ops, op.isSetViewPortOrSetStencil = true)
    (halloc : s.manager.upcoming = some id :: rest) :
    ∃ s₁ s₂ issued,
      (Reset defaultViewPort >>= fun _ => runAll defaultViewPort ops) s = .ok () s₁ ∧
      s₁.manager = s.manager ∧
      Submit defaultViewPort encoder programHandle flags s₁ = .ok () s₂ ∧
      s₂.calls = s₁.calls ++ issued ∧
      issued = Call.NewViewId :: viewSetup s₁.fb s₁.stats id s₂.fb.m_viewPort ++
        [Call.submit encoder id programHandle 0 flags] ∧
      issued.count Call.NewViewId = 1 ∧
      s₂.manager.upcoming = rest ∧
      s₂.fb.m_viewId = some id := by
  obtain ⟨s₁, h₁, hid, -, -, -, -, hm, -⟩ :=
    runAll_setViewPort_setStencil defaultViewPort ops hops
      { s with fb := { s.fb with m_viewId := none, m_viewPort := defaultViewPort,
                                 m_requestedViewPort := none } }
  have hid' : s₁.fb.m_viewId = none := hid
  have hm' : s₁.manager = s.manager := hm
  have halloc₁ : s₁.manager.upcoming = some id :: rest := by rw [hm']; exact halloc
  refine ⟨s₁, ?_⟩
  cases hd : requestedDiffers s₁.fb
  · exact ⟨_, Call.NewViewId :: viewSetup s₁.fb s₁.stats id defaultViewPort ++
        [Call.submit encoder id programHandle 0 flags],
      by simp [Reset_apply, h₁], hm', Submit_unassigned _ _ _ _ hd hid' halloc₁, rfl, rfl,
      by simp [viewSetup], rfl, rfl⟩
  · obtain ⟨requested, hr, hne⟩ := (requestedDiffers_eq_true_iff s₁.fb).1 hd
    exact ⟨_, Call.NewViewId :: viewSetup s₁.fb s₁.stats id requested ++
        [Call.submit encoder id programHandle 0 flags],
      by simp [Reset_apply, h₁], hm', Submit_requested _ _ _ _ hr hne halloc₁, rfl, rfl,
      by simp [viewSetup], rfl, rfl⟩

/-- C4 at a target drawing into view 0: after `Reset`, a `SetViewPort` to the full
viewport that was committed before and a `SetStencil`, `Submit` acquires view 1. -/
theorem Reset_then_Submit_acquires_witness :
    (∀ op ∈ [Operation.SetViewPort 7 Float32.zero Float32.zero Float32.one Float32.one,
        Operation.SetStencil 7 9],
      op.isSetViewPortOrSetStencil = true) ∧
    assignedState.manager.upcoming = some 1 :: [some 2] ∧
    ∃ s₁ s₂,
      (Reset fullViewPort >>= fun _ =>
        runAll fullViewPort
          [Operation.SetViewPort 7 Float32.zero Float32.zero Float32.one Float32.one,
            Operation.SetStencil 7 9])
        assignedState = .ok () s₁ ∧
      Submit fullViewPort 7 3 0 s₁ = .ok () s₂ ∧
      s₂.fb.m_viewId = some 1 := by
  have hops : ∀ op ∈
      [Operation.SetViewPort 7 Float32.zero Float32.zero Float32.one Float32.one,
        Operation.SetStencil 7 9],
      op.isSetViewPortOrSetStencil = true := by
    simp [Operation.isSetViewPortOrSetStencil]
  obtain ⟨s₁, s₂, issued, h₁, -, h₂, -, -, -, -, h₃⟩ :=
    Reset_then_Submit_acquires fullViewPort assignedState
      [Operation.SetViewPort 7 Float32.zero Float32.zero Float32.one Float32.one,
        Operation.SetStencil 7 9] 7 3 0 1 [some 2] hops rfl
  exact ⟨hops, rfl, s₁, s₂, h₁, h₂, h₃⟩

/-! ## Blit, Clear and AcquireNewViewId -/

/-- C5: in every state, `Blit` requests exactly one identifier `v₁`, configures it
for the default viewport, issues no touch and issues the blit on `v₁`.  When the
allocator keeps its contract, `v₁` differs from a live identifier held before the
call, and a `Blit` that follows directly is given an identifier `v₂ ≠ v₁` on
which it issues its own blit. -/
theorem Blit_always_acquires (defaultViewPort : ViewPort) (s : State)
    (encoder : Encoder) (dst : TextureHandle) (dstX dstY : Nat) (src : TextureHandle)
    (srcX srcY width height : Nat) (v₁ : ViewId) (rest : List (Option ViewId))
    (halloc : s.manager.upcoming = some v₁ :: rest) :
    ∃ s₁ issued,
      Blit defaultViewPort encoder dst dstX dstY src srcX srcY width height s = .ok () s₁ ∧
      s₁.calls = s.calls ++ issued ∧
      issued = Call.NewViewId :: viewSetup s.fb s.stats v₁ defaultViewPort ++
        [Call.blit encoder v₁ dst dstX dstY src srcX srcY width height] ∧
      issued.count Call.NewViewId = 1 ∧
      (∀ c ∈ issued, c.isTouch = false) ∧
      s₁.fb.m_viewId = some v₁ ∧
      (s.manager.Unique → ∀ v, s.fb.m_viewId = some v → v ∈ s.manager.live → v₁ ≠ v) ∧
      (∀ (encoder' : Encoder) (dst' : TextureHandle) (dstX' dstY' : Nat)
          (src' : TextureHandle) (srcX' srcY' width' height' : Nat)
          (v₂ : ViewId) (rest' : List (Option ViewId)),
        rest = some v₂ :: rest' →
        ∃ s₂,
          Blit defaultViewPort encoder' dst' dstX' dstY' src' srcX' srcY' width' height' s₁ =
            .ok () s₂ ∧
          s₂.calls = s₁.calls ++
            (Call.NewViewId :: viewSetup s₁.fb s₁.stats v₂ defaultViewPort ++
              [Call.blit encoder' v₂ dst' dstX' dstY' src' srcX' srcY' width' height']) ∧
          s₂.fb.m_viewId = some v₂ ∧
          (s.manager.Unique → v₂ ≠ v₁)) := by
  refine ⟨_, _, Blit_ok _ _ _ _ _ _ _ _ _ _ halloc, rfl, rfl, by simp [viewSetup],
    by simp [viewSetup, Call.isTouch], rfl, ?_, ?_⟩
  · intro hu v _ hv
    exact hu.ne_of_mem_live halloc hv
  · intro encoder' dst' dstX' dstY' src' srcX' srcY' width' height' v₂ rest' hrest
    refine ⟨_, Blit_ok _ _ _ _ _ _ _ _ _ _ hrest, rfl, rfl, ?_⟩
    intro hu
    exact (hu.next halloc).ne_of_mem_live hrest (List.mem_cons_self _ _)

/-- C5 at a target drawing into view 0: two blits in a row use views 1 and 2. -/
theorem Blit_always_acquires_witness :
    assignedState.manager.upcoming = some 1 :: [some 2] ∧
    ∃ s₁ s₂,
      Blit fullViewPort 7 10 0 0 11 0 0 64 64 assignedState = .ok () s₁ ∧
      s₁.fb.m_viewId = some 1 ∧
      Blit fullViewPort 7 12 0 0 13 0 0 32 32 s₁ = .ok () s₂ ∧
      s₂.fb.m_viewId = some 2 := by
  obtain ⟨s₁, issued, h₁, -, -, -, -, hv₁, -, h⟩ :=
    Blit_always_acquires fullViewPort assignedState 7 10 0 0 11 0 0 64 64 1 [some 2] rfl
  obtain ⟨s₂, h₂, -, hv₂, -⟩ := h 7 12 0 0 13 0 0 32 32 2 [] rfl
  exact ⟨rfl, s₁, s₂, h₁, hv₁, h₂, hv₂⟩

/-- C6: in every state and for every `(flags, rgba, depth, stencil)`, `Clear`
requests exactly one identifier `v`, commits the default viewport, configures `v`,
touches `v` and then sets the caller's clear parameters for `v`; when `Clear`
returns, the clear parameters held for `v` are the caller's, not those of the
`BGFX_CLEAR_NONE` call made while configuring the view. -/
theorem Clear_acquires_touches_and_sets_clear (defaultViewPort : ViewPort) (s : State)
    (encoder : Encoder) (flags rgba : Nat) (depth : Float32) (stencil : Nat)
    (v : ViewId) (rest : List (Option ViewId))
    (halloc : s.manager.upcoming = some v :: rest) :
    ∃ s' issued,
      Clear defaultViewPort encoder flags rgba depth stencil s = .ok () s' ∧
      s'.calls = s.calls ++ issued ∧
      issued = Call.NewViewId :: viewSetup s.fb s.stats v defaultViewPort ++
        [Call.touch encoder v, Call.setViewClear v flags rgba depth stencil] ∧
      issued.count Call.NewViewId = 1 ∧
      s'.manager.upcoming = rest ∧
      s'.fb.m_viewId = some v ∧
      s'.fb.m_viewPort = defaultViewPort ∧
      viewClearOf v s'.calls = some (flags, rgba, depth, stencil) := by
  refine ⟨_, _, Clear_ok _ _ _ _ _ _ halloc, rfl, rfl, by simp [viewSetup], rfl, rfl, rfl, ?_⟩
  simp [viewClearOf, viewSetup, List.foldl_append]

/-- C6 at a freshly constructed target: clearing colour and depth takes view 1. -/
theorem Clear_acquires_touches_and_sets_clear_witness :
    freshState.manager.upcoming = some 1 :: [some 2] ∧
    ∃ s',
      Clear fullViewPort 7 3 255 Float32.one 0 freshState = .ok () s' ∧
      viewClearOf 1 s'.calls = some (3, 255, Float32.one, 0) := by
  obtain ⟨s', issued, h, -, -, -, -, -, -, hc⟩ :=
    Clear_acquires_touches_and_sets_clear fullViewPort freshState 7 3 255 Float32.one 0 1
      [some 2] rfl
  exact ⟨rfl, s', h, hc⟩

/-- C7: in every state reachable from construction by the public operations in
which no view identifier is assigned and the pending viewport is absent or
`Equals` the committed one, `Submit` requests exactly one identifier `id`,
configures it for the viewport that was committed before the call, issues no
touch and draws into `id`; the committed viewport is unchanged. -/
theorem Submit_unassigned_keeps_committed_viewport (defaultViewPort : ViewPort)
    (s : State) (encoder : Encoder) (programHandle : ProgramHandle) (flags : Nat)
    (id : ViewId) (rest : List (Option ViewId))
    (hreach : Reachable defaultViewPort s.fb)
    (hv : s.fb.m_viewId = none)
    (hpending : ∀ requested, s.fb.m_requestedViewPort = some requested →
      requested.Equals s.fb.m_viewPort = true)
    (halloc : s.manager.upcoming = some id :: rest) :
    ∃ issued,
      Submit defaultViewPort encoder programHandle flags s = .ok ()
        { fb := { s.fb with m_viewId := some id }
          manager := { upcoming := rest, live := id :: s.manager.live }
          stats := s.stats
          calls := s.calls ++ issued } ∧
      issued = Call.NewViewId :: viewSetup s.fb s.stats id s.fb.m_viewPort ++
        [Call.submit encoder id programHandle 0 flags] ∧
      issued.count Call.NewViewId = 1 ∧
      (∀ c ∈ issued, c.isTouch = false) := by
  have hd : requestedDiffers s.fb = false := by
    cases hr : s.fb.m_requestedViewPort with
    | none => simp [requestedDiffers, hr]
    | some requested => simp [requestedDiffers, hr, hpending requested hr]
  have hdef : s.fb.m_viewPort = defaultViewPort := hreach.unassignedIsDefault hv
  refine ⟨_, ?_, rfl, by simp [viewSetup], by simp [viewSetup, Call.isTouch]⟩
  rw [Submit_unassigned _ _ _ _ hd hv halloc, hdef]
  rcases s with ⟨⟨_, _, _, _, _, _, _⟩, _, _, _⟩
  cases hdef
  rfl

/-- C7 at a freshly constructed target. -/
theorem Submit_unassigned_keeps_committed_viewport_witness :
    Reachable fullViewPort freshState.fb ∧ freshState.fb.m_viewId = none ∧
    (∀ requested, freshState.fb.m_requestedViewPort = some requested →
      requested.Equals freshState.fb.m_viewPort = true) ∧
    freshState.manager.upcoming = some 1 :: [some 2] ∧
    ∃ s', Submit fullViewPort 7 3 0 freshState = .ok () s' ∧
      s'.fb.m_viewId = some 1 ∧ s'.fb.m_viewPort = freshState.fb.m_viewPort := by
  have hp : ∀ requested, freshState.fb.m_requestedViewPort = some requested →
      requested.Equals freshState.fb.m_viewPort = true := by
    intro requested h
    cases h
  obtain ⟨issued, h, -⟩ := Submit_unassigned_keeps_committed_viewport fullViewPort freshState
    7 3 0 1 [some 2] (Reachable.new 5 0 0 false) rfl hp rfl
  exact ⟨Reachable.new 5 0 0 false, rfl, hp, rfl, _, h, rfl, rfl⟩

/-- C8: in every state, `AcquireNewViewId` requests exactly one identifier `id` and
configures it for the committed viewport, whatever is pending: the calls issued
are the request and the four configuration calls (no touch, no encoder call),
`id` becomes the current view, and the committed and pending viewports are
unchanged. -/
theorem AcquireNewViewId_uses_committed_viewport (s : State)
    (id : ViewId) (rest : List (Option ViewId))
    (halloc : s.manager.upcoming = some id :: rest) :
    ∃ issued,
      AcquireNewViewId s = .ok ()
        { fb := { s.fb with m_viewId := some id }
          manager := { upcoming := rest, live := id :: s.manager.live }
          stats := s.stats
          calls := s.calls ++ issued } ∧
      issued = Call.NewViewId :: viewSetup s.fb s.stats id s.fb.m_viewPort ∧
      issued.count Call.NewViewId = 1 ∧
      (∀ c ∈ issued, c.isTouch = false ∧ c.isEncoderCall = false) := by
  exact ⟨_, AcquireNewViewId_ok halloc, rfl, by simp [viewSetup],
    by simp [viewSetup, Call.isTouch, Call.isEncoderCall]⟩

/-- C8 at a target drawing into view 0 with the lower right quarter pending: the
new view 1 is configured for the committed full viewport. -/
theorem AcquireNewViewId_uses_committed_viewport_witness :
    pendingQuarterState.manager.upcoming = some 1 :: [some 2] ∧
    ∃ s', AcquireNewViewId pendingQuarterState = .ok () s' ∧
      s'.fb.m_viewId = some 1 ∧ s'.fb.m_viewPort = fullViewPort ∧
      s'.fb.m_requestedViewPort = some quarterViewPort ∧
      s'.calls = Call.NewViewId :: viewSetup pendingQuarterState.fb ⟨800, 600⟩ 1 fullViewPort := by
  obtain ⟨issued, h, hi, -⟩ :=
    AcquireNewViewId_uses_committed_viewport pendingQuarterState 1 [some 2] rfl
  subst hi
  exact ⟨rfl, _, h, rfl, rfl, rfl, rfl⟩

/-! ## ViewPort.Equals and the dimensions -/

/-- The `float` subtraction `2⁻²³ - 2⁻⁵⁰` delivers `2⁻²³`: the exact difference lies
between the `float`s `2⁻²³ - 2⁻⁴⁷` and `2⁻²³`, nearer to the latter. -/
theorem FloatValue.round_epsilon_minus_tiny :
    FloatValue.round (epsilon - 1 / 2 ^ 50) = .fin epsilon := by
  have h := @FloatValue.round_eq (epsilon - 1 / 2 ^ 50) (-24) 16777216
    (by norm_num [epsilon, abs_of_pos]) (by norm_num [epsilon, abs_of_pos]) (by norm_num)
    (by norm_num [epsilon, abs_lt]) (by norm_num [abs_of_pos])
  rw [h]
  norm_num [epsilon]

/-- C9 (amended): for all viewports `a` and `b`, `a.Equals b` is true exactly when the
four differences, each as the `float` subtraction delivers it (the exact difference
rounded to the nearest `float`) and in absolute value, are below epsilon.  That is
so whenever the members are finite and the four exact differences are below
`epsilon - 2⁻⁴⁸` in absolute value; and if at least one exact difference of two
finite members is epsilon or more in absolute value, `a.Equals b` is false. -/
theorem ViewPort.Equals_true_below_epsilon_false_otherwise (a b : ViewPort) :
    (a.Equals b = true ↔
      (a.X.value.sub b.X.value).abs.lt (.fin epsilon) = true ∧
      (a.Y.value.sub b.Y.value).abs.lt (.fin epsilon) = true ∧
      (a.Width.value.sub b.Width.value).abs.lt (.fin epsilon) = true ∧
      (a.Height.value.sub b.Height.value).abs.lt (.fin epsilon) = true) ∧
    (a.isFinite = true → b.isFinite = true →
      |a.X.toRat - b.X.toRat| < epsilon - 1 / 2 ^ 48 ∧
      |a.Y.toRat - b.Y.toRat| < epsilon - 1 / 2 ^ 48 ∧
      |a.Width.toRat - b.Width.toRat| < epsilon - 1 / 2 ^ 48 ∧
      |a.Height.toRat - b.Height.toRat| < epsilon - 1 / 2 ^ 48 →
      a.Equals b = true) ∧
    ((a.X.isFinite = true ∧ b.X.isFinite = true ∧ epsilon ≤ |a.X.toRat - b.X.toRat|) ∨
      (a.Y.isFinite = true ∧ b.Y.isFinite = true ∧ epsilon ≤ |a.Y.toRat - b.Y.toRat|) ∨
      (a.Width.isFinite = true ∧ b.Width.isFinite = true ∧
        epsilon ≤ |a.Width.toRat - b.Width.toRat|) ∨
      (a.Height.isFinite = true ∧ b.Height.isFinite = true ∧
        epsilon ≤ |a.Height.toRat - b.Height.toRat|) →
      a.Equals b = false) := by
  refine ⟨by simp [ViewPort.Equals, and_assoc], ?_, ViewPort.Equals_eq_false_of_far a b⟩
  rintro ha hb ⟨hx, hy, hw, hh⟩
  exact ViewPort.Equals_eq_true_of_near a b ha hb hx hy hw hh

/-- The amended C9 at the full viewport: it equals itself, and it does not equal the
lower right quarter, whose members are a half away. -/
theorem ViewPort.Equals_true_below_epsilon_false_otherwise_witness :
    fullViewPort.Equals fullViewPort = true ∧
    quarterViewPort.Equals fullViewPort = false :=
  ⟨(ViewPort.Equals_true_below_epsilon_false_otherwise fullViewPort fullViewPort).2.1 rfl rfl
      (by simp [epsilon]; norm_num),
    (ViewPort.Equals_true_below_epsilon_false_otherwise quarterViewPort fullViewPort).2.2
      (Or.inl ⟨rfl, rfl, by
        show epsilon ≤ |Float32.half.toRat - Float32.zero.toRat|
        rw [Float32.toRat_half, Float32.toRat_zero, sub_zero, abs_of_pos (by norm_num)]
        norm_num [epsilon]⟩)⟩

/-- C9 as stated fails for the viewports `(2⁻²³, 0, 1, 1)` and `(2⁻⁵⁰, 0, 1, 1)`: all
members are finite and the four exact differences are below epsilon in absolute
value (the first is `2⁻²³ - 2⁻⁵⁰`, the others are 0), yet `Equals` is false, because
the `float` subtraction rounds the first difference up to epsilon. -/
theorem Equals_false_for_differences_below_epsilon :
    epsilonXViewPort.isFinite = true ∧ tinyXViewPort.isFinite = true ∧
    |epsilonXViewPort.X.toRat - tinyXViewPort.X.toRat| < epsilon ∧
    |epsilonXViewPort.Y.toRat - tinyXViewPort.Y.toRat| < epsilon ∧
    |epsilonXViewPort.Width.toRat - tinyXViewPort.Width.toRat| < epsilon ∧
    |epsilonXViewPort.Height.toRat - tinyXViewPort.Height.toRat| < epsilon ∧
    epsilonXViewPort.X.value.sub tinyXViewPort.X.value = .fin epsilon ∧
    epsilonXViewPort.Equals tinyXViewPort = false := by
  have hsub : epsilonXViewPort.X.value.sub tinyXViewPort.X.value = .fin epsilon := by
    show (FloatValue.fin Float32.twoPowMinus23.toRat).sub
      (.fin Float32.twoPowMinus50.toRat) = .fin epsilon
    rw [Float32.toRat_twoPowMinus23, Float32.toRat_twoPowMinus50]
    exact FloatValue.round_epsilon_minus_tiny
  refine ⟨rfl, rfl, ?_, ?_, ?_, ?_, hsub, ?_⟩
  · show |Float32.twoPowMinus23.toRat - Float32.twoPowMinus50.toRat| < epsilon
    rw [Float32.toRat_twoPowMinus23, Float32.toRat_twoPowMinus50]
    norm_num [epsilon, abs_lt]
  · show |Float32.zero.toRat - Float32.zero.toRat| < epsilon
    simp [epsilon_pos]
  · show |Float32.one.toRat - Float32.one.toRat| < epsilon
    simp [epsilon_pos]
  · show |Float32.one.toRat - Float32.one.toRat| < epsilon
    simp [epsilon_pos]
  · unfold ViewPort.Equals
    rw [hsub]
    simp [FloatValue.abs, FloatValue.lt, abs_of_pos epsilon_pos]

/-- C10: for every target and every swap-chain size, `Width` is the stored width when
that is not zero and the swap chain's width when it is zero, and `Height` likewise
for the height, each decided by its own stored value; with a zero stored dimension,
queries of one and the same object under two swap-chain sizes `stats` and `stats'`
give the two swap-chain values. -/
theorem Width_Height_stored_or_swap_chain (self : FrameBuffer) (stats stats' : Stats) :
    (self.m_width ≠ 0 → self.Width stats = self.m_width) ∧
    (self.m_width = 0 → self.Width stats = stats.width ∧ self.Width stats' = stats'.width) ∧
    (self.m_height ≠ 0 → self.Height stats = self.m_height) ∧
    (self.m_height = 0 →
      self.Height stats = stats.height ∧ self.Height stats' = stats'.height) := by
  refine ⟨fun h => ?_, fun h => ?_, fun h => ?_, fun h => ?_⟩ <;>
    simp [FrameBuffer.Width, FrameBuffer.Height, h]

/-- C10 at a target with a stored width of 256 and an inherited height, queried
before and after the swap chain goes from 800 × 600 to 1024 × 768. -/
theorem Width_Height_stored_or_swap_chain_witness :
    (FrameBuffer.new 5 256 0 false fullViewPort).Width ⟨800, 600⟩ = 256 ∧
    (FrameBuffer.new 5 256 0 false fullViewPort).Height ⟨800, 600⟩ = 600 ∧
    (FrameBuffer.new 5 256 0 false fullViewPort).Height ⟨1024, 768⟩ = 768 :=
  ⟨(Width_Height_stored_or_swap_chain (FrameBuffer.new 5 256 0 false fullViewPort)
      ⟨800, 600⟩ ⟨1024, 768⟩).1 (by decide),
    ((Width_Height_stored_or_swap_chain (FrameBuffer.new 5 256 0 false fullViewPort)
      ⟨800, 600⟩ ⟨1024, 768⟩).2.2.2 rfl).1,
    ((Width_Height_stored_or_swap_chain (FrameBuffer.new 5 256 0 false fullViewPort)
      ⟨800, 600⟩ ⟨1024, 768⟩).2.2.2 rfl).2⟩

/-! ## Reset and SetViewPort on their own -/

/-- C11: in every state, `Reset` returns in a state whose view identifier is absent,
whose committed viewport is the default one and whose pending viewport is absent;
the handle, the stored width and height and the default-surface flag are
unchanged, the allocator is as before (no request) and no call at all has been
issued. -/
theorem Reset_clears_view_assignment (defaultViewPort : ViewPort) (s : State) :
    ∃ s',
      Reset defaultViewPort s = .ok () s' ∧
      s'.fb.m_viewId = none ∧
      s'.fb.m_viewPort = defaultViewPort ∧
      s'.fb.m_requestedViewPort = none ∧
      s'.fb.m_handle = s.fb.m_handle ∧
      s'.fb.m_width = s.fb.m_width ∧
      s'.fb.m_height = s.fb.m_height ∧
      s'.fb.m_defaultBackBuffer = s.fb.m_defaultBackBuffer ∧
      s'.manager = s.manager ∧
      s'.stats = s.stats ∧
      s'.calls = s.calls :=
  ⟨_, Reset_apply defaultViewPort s, rfl, rfl, rfl, rfl, rfl, rfl, rfl, rfl, rfl, rfl⟩

/-- C12: in every state and for every `(x, y, width, height)`, `SetViewPort` returns
in the state that differs from the one before only in the pending viewport, which
is exactly that rectangle: the view identifier and the committed viewport are
unchanged, the allocator is as before (no request) and no call has been issued to
the encoder or to bgfx. -/
theorem SetViewPort_only_sets_pending (s : State) (encoder : Encoder)
    (x y width height : Float32) :
    SetViewPort encoder x y width height s = .ok ()
        { s with fb := { s.fb with m_requestedViewPort := some ⟨x, y, width, height⟩ } } ∧
    (SetViewPort encoder x y width height s).state.fb.m_requestedViewPort =
      some ⟨x, y, width, height⟩ ∧
    (SetViewPort encoder x y width height s).state.fb.m_viewId = s.fb.m_viewId ∧
    (SetViewPort encoder x y width height s).state.fb.m_viewPort = s.fb.m_viewPort ∧
    (SetViewPort encoder x y width height s).state.manager = s.manager ∧
    (SetViewPort encoder x y width height s).state.calls = s.calls :=
  ⟨rfl, rfl, rfl, rfl, rfl, rfl⟩

/-! ## Exhaustion of the allocator -/

/-- C13: when the allocator refuses the next request, each of `Clear`, `Blit`,
`AcquireNewViewId` and a `Submit` that has to reallocate (a differing viewport is
pending, or no view is assigned) throws the allocator's exception; the only call
issued is the one request, and the object (view identifier, committed and pending
viewport included) is unchanged.  A `Submit` on the reuse path (a view is assigned
and no differing viewport is pending) returns whatever the allocator would do. -/
theorem exhaustion_propagates_unchanged (defaultViewPort : ViewPort) (s : State)
    (encoder : Encoder) (flags rgba : Nat) (depth : Float32) (stencil : Nat)
    (dst : TextureHandle) (dstX dstY : Nat) (src : TextureHandle)
    (srcX srcY width height : Nat) (programHandle : ProgramHandle) (submitFlags : Nat) :
    (s.manager.NewViewId.1 = none →
      Clear defaultViewPort encoder flags rgba depth stencil s =
        .threw .viewIdsExhausted
          { s with calls := s.calls ++ [Call.NewViewId], manager := s.manager.NewViewId.2 } ∧
      Blit defaultViewPort encoder dst dstX dstY src srcX srcY width height s =
        .threw .viewIdsExhausted
          { s with calls := s.calls ++ [Call.NewViewId], manager := s.manager.NewViewId.2 } ∧
      AcquireNewViewId s =
        .threw .viewIdsExhausted
          { s with calls := s.calls ++ [Call.NewViewId], manager := s.manager.NewViewId.2 } ∧
      (requestedDiffers s.fb = true ∨ s.fb.m_viewId = none →
        Submit defaultViewPort encoder programHandle submitFlags s =
          .threw .viewIdsExhausted
            { s with calls := s.calls ++ [Call.NewViewId],
                     manager := s.manager.NewViewId.2 })) ∧
    (∀ v, requestedDiffers s.fb = false → s.fb.m_viewId = some v →
      Submit defaultViewPort encoder programHandle submitFlags s =
        .ok ()
          { s with
            calls := s.calls ++ [Call.submit encoder v programHandle 0 submitFlags] }) := by
  refine ⟨fun h => ⟨Clear_threw _ _ _ _ _ _ h, Blit_threw _ _ _ _ _ _ _ _ _ _ h,
    AcquireNewViewId_threw h, ?_⟩, fun v hd hv => Submit_reuse _ _ _ _ hd hv⟩
  intro hsub
  cases hd : requestedDiffers s.fb
  · rcases hsub with hsub | hv
    · rw [hd] at hsub; cases hsub
    · exact Submit_unassigned_threw _ _ _ _ hd hv h
  · exact Submit_requested_threw _ _ _ _ hd h

/-- C13 at a target drawing into view 0 whose allocator has nothing left: `Blit` throws
after its one request, and `Submit` still draws into view 0. -/
theorem exhaustion_propagates_unchanged_witness :
    exhaustedState.manager.NewViewId.1 = none ∧
    Blit fullViewPort 7 10 0 0 11 0 0 64 64 exhaustedState =
      .threw .viewIdsExhausted { exhaustedState with calls := [Call.NewViewId] } ∧
    Submit fullViewPort 7 3 0 exhaustedState =
      .ok () { exhaustedState with calls := [Call.submit 7 0 3 0 0] } :=
  ⟨rfl,
    ((exhaustion_propagates_unchanged fullViewPort exhaustedState 7 3 255 Float32.one 0
      10 0 0 11 0 0 64 64 3 0).1 rfl).2.1,
    (exhaustion_propagates_unchanged fullViewPort exhaustedState 7 3 255 Float32.one 0
      10 0 0 11 0 0 64 64 3 0).2 0 rfl rfl⟩

/-! ## Destruction -/

/-- The destructor issues one destroy call on a valid handle. -/
theorem destruct_valid {s : State} (h : isValid s.fb.m_handle = true) :
    FrameBuffer.destruct s = .ok ()
      { s with calls := s.calls ++ [Call.destroy s.fb.m_handle] } := by
  simp [FrameBuffer.destruct, h]

/-- The destructor does nothing on an invalid handle. -/
theorem destruct_invalid {s : State} (h : isValid s.fb.m_handle = false) :
    FrameBuffer.destruct s = .ok () s := by
  simp [FrameBuffer.destruct, h]

/-- C14 (amended): for every target with the default-surface flag set whose handle
is the invalid one, in whatever state it is, destroying the target returns without
having issued any call, so no destroy call on the handle. -/
theorem destruct_default_surface_invalid_handle (s : State)
    (_hflag : s.fb.m_defaultBackBuffer = true) (hhandle : isValid s.fb.m_handle = false) :
    FrameBuffer.destruct s = .ok () s :=
  destruct_invalid hhandle

/-- The amended C14 at a default-surface target with the invalid handle. -/
theorem destruct_default_surface_invalid_handle_witness :
    defaultSurfaceState.fb.m_defaultBackBuffer = true ∧
    isValid defaultSurfaceState.fb.m_handle = false ∧
    FrameBuffer.destruct defaultSurfaceState = .ok () defaultSurfaceState :=
  ⟨rfl, rfl, destruct_default_surface_invalid_handle defaultSurfaceState rfl rfl⟩

/-- C14 as stated fails for a target constructed with the default-surface flag set
and the valid handle 5: the destructor looks at the handle only, and issues
`bgfx::destroy` on it. -/
theorem destruct_default_surface_valid_handle_destroys :
    (FrameBuffer.new 5 0 0 true fullViewPort).m_defaultBackBuffer = true ∧
    defaultSurfaceValidHandleState.fb = FrameBuffer.new 5 0 0 true fullViewPort ∧
    defaultSurfaceValidHandleState.calls = [] ∧
    FrameBuffer.destruct defaultSurfaceValidHandleState =
      .ok () { defaultSurfaceValidHandleState with calls := [Call.destroy 5] } :=
  ⟨rfl, rfl, rfl, destruct_valid rfl⟩

/-- C15: in every state, destroying a target whose handle is invalid returns (no
exception) without having issued any call; destroying a target that is not the
default surface and whose handle is valid returns having issued exactly one call,
the destroy call on that handle. -/
theorem destruct_by_handle_validity (s : State) :
    (isValid s.fb.m_handle = false → FrameBuffer.destruct s = .ok () s) ∧
    (s.fb.m_defaultBackBuffer = false → isValid s.fb.m_handle = true →
      FrameBuffer.destruct s = .ok ()
        { s with calls := s.calls ++ [Call.destroy s.fb.m_handle] }) :=
  ⟨destruct_invalid, fun _ h => destruct_valid h⟩

/-- C15 at an owned target with handle 5 and at a target with the invalid handle. -/
theorem destruct_by_handle_validity_witness :
    FrameBuffer.destruct defaultSurfaceState = .ok () defaultSurfaceState ∧
    FrameBuffer.destruct freshState = .ok () { freshState with calls := [Call.destroy 5] } :=
  ⟨(destruct_by_handle_validity defaultSurfaceState).1 rfl,
    (destruct_by_handle_validity freshState).2 rfl rfl⟩

/-! ## When a view identifier is present -/

/-- An operation that acquires and returns leaves a view identifier assigned. -/
theorem run_ok_acquires {defaultViewPort : ViewPort} {op : Operation} {s s' : State}
    (hop : op.acquires = true) (h : op.run defaultViewPort s = .ok () s') :
    s'.fb.m_viewId.isSome = true := by
  rcases s.manager.NewViewId_cases with ha | ⟨v, rest, ha⟩
  · cases op with
    | Clear encoder flags rgba depth stencil =>
      rw [Operation.run, Clear_threw _ _ _ _ _ _ ha] at h; cases h
    | Blit encoder dst dstX dstY src srcX srcY width height =>
      rw [Operation.run, Blit_threw _ _ _ _ _ _ _ _ _ _ ha] at h; cases h
    | AcquireNewViewId => rw [Operation.run, AcquireNewViewId_threw ha] at h; cases h
    | Submit encoder programHandle flags =>
      cases hd : requestedDiffers s.fb
      · cases hv : s.fb.m_viewId with
        | none => rw [Operation.run, Submit_unassigned_threw _ _ _ _ hd hv ha] at h; cases h
        | some w =>
          rw [Operation.run, Submit_reuse _ _ _ _ hd hv] at h
          cases h
          simp [hv]
      · rw [Operation.run, Submit_requested_threw _ _ _ _ hd ha] at h; cases h
    | _ => cases hop
  · cases op with
    | Clear encoder flags rgba depth stencil =>
      rw [Operation.run, Clear_ok _ _ _ _ _ _ ha] at h; cases h; rfl
    | Blit encoder dst dstX dstY src srcX srcY width height =>
      rw [Operation.run, Blit_ok _ _ _ _ _ _ _ _ _ _ ha] at h; cases h; rfl
    | AcquireNewViewId => rw [Operation.run, AcquireNewViewId_ok ha] at h; cases h; rfl
    | Submit encoder programHandle flags =>
      cases hd : requestedDiffers s.fb
      · cases hv : s.fb.m_viewId with
        | none => rw [Operation.run, Submit_unassigned _ _ _ _ hd hv ha] at h; cases h; rfl
        | some w =>
          rw [Operation.run, Submit_reuse _ _ _ _ hd hv] at h
          cases h
          simp [hv]
      · obtain ⟨requested, hr, hne⟩ := (requestedDiffers_eq_true_iff s.fb).1 hd
        rw [Operation.run, Submit_requested _ _ _ _ hr hne ha] at h; cases h; rfl
    | _ => cases hop

/-- An operation that neither acquires nor is `Reset` leaves the view identifier alone. -/
theorem run_ok_keeps_viewId {defaultViewPort : ViewPort} {op : Operation} {s s' : State}
    (hop : op.acquires = false) (hreset : op ≠ Operation.Reset)
    (h : op.run defaultViewPort s = .ok () s') : s'.fb.m_viewId = s.fb.m_viewId := by
  cases op with
  | SetViewPort encoder x y width height =>
    rw [Operation.run, SetViewPort_apply] at h; cases h; rfl
  | SetStencil encoder stencilState =>
    rw [Operation.run, SetStencil_apply] at h; cases h; rfl
  | Reset => exact absurd rfl hreset
  | _ => cases hop

/-- An acquiring operation with no `Reset` after it exists in `ops ++ [op]` exactly
when `op` acquires, or `op` is not `Reset` and one exists in `ops`. -/
theorem acquired_since_reset_concat (ops : List Operation) (op : Operation) :
    (∃ before o after, ops ++ [op] = before ++ o :: after ∧ o.acquires = true ∧
        Operation.Reset ∉ after) ↔
      op.acquires = true ∨
        (op ≠ Operation.Reset ∧
          ∃ before o after, ops = before ++ o :: after ∧ o.acquires = true ∧
            Operation.Reset ∉ after) := by
  constructor
  · rintro ⟨before, o, after, heq, ho, hafter⟩
    rcases List.eq_nil_or_concat after with rfl | ⟨after', x, rfl⟩
    · left
      have h := List.append_inj' heq rfl
      have hx : op = o := by simpa using h.2
      rw [hx]; exact ho
    · right
      have heq' : ops ++ [op] = (before ++ o :: after') ++ [x] := by
        rw [heq]; simp
      have h := List.append_inj' heq' rfl
      have hx : op = x := by simpa using h.2
      refine ⟨?_, before, o, after', h.1, ho, ?_⟩
      · rintro rfl
        exact hafter (by simp [← hx])
      · intro hmem
        exact hafter (by simp [hmem])
  · rintro (hop | ⟨hne, before, o, after, heq, ho, hafter⟩)
    · exact ⟨ops, op, [], rfl, hop, by simp⟩
    · refine ⟨before, o, after ++ [op], by rw [heq]; simp, ho, ?_⟩
      simp only [List.mem_append, List.mem_singleton, not_or]
      exact ⟨hafter, fun h => hne h.symm⟩

/-- C16: in every state reached from construction by a sequence of `Clear`,
`SetViewPort`, `Submit`, `Blit`, `SetStencil`, `AcquireNewViewId` and `Reset` calls
that have all returned, a view identifier is present if and only if the sequence
contains a `Clear`, `Submit`, `Blit` or `AcquireNewViewId` with no `Reset` after
it. -/
theorem viewId_present_iff_acquired_since_reset (defaultViewPort : ViewPort)
    (ops : List Operation) (self : FrameBuffer)
    (hrun : SuccessfulRun defaultViewPort ops self) :
    self.m_viewId.isSome = true ↔
      ∃ before op after, ops = before ++ op :: after ∧ op.acquires = true ∧
        Operation.Reset ∉ after := by
  induction hrun with
  | new handle width height defaultBackBuffer => simp [FrameBuffer.new]
  | step s s' op _ hop ih =>
    rw [acquired_since_reset_concat]
    cases hacq : op.acquires
    · by_cases hreset : op = Operation.Reset
      · subst hreset
        rw [Operation.run, Reset_apply] at hop
        cases hop
        simp
      · rw [run_ok_keeps_viewId hacq hreset hop, ih]
        simp [hreset]
    · simp [run_ok_acquires hacq hop]

/-- C16 on a fresh target after `Clear`, `Reset`, `SetViewPort`: no view is present,
and the sequence has no acquiring call after its `Reset`. -/
theorem viewId_present_iff_acquired_since_reset_witness :
    SuccessfulRun fullViewPort
      [Operation.Clear 7 3 255 Float32.one 0, Operation.Reset,
        Operation.SetViewPort 7 Float32.zero Float32.zero Float32.one Float32.one]
      { FrameBuffer.new 5 0 0 false fullViewPort with
        m_requestedViewPort := some fullViewPort } ∧
    ¬ ∃ before op after,
      [Operation.Clear 7 3 255 Float32.one 0, Operation.Reset,
        Operation.SetViewPort 7 Float32.zero Float32.zero Float32.one Float32.one] =
        before ++ op :: after ∧ op.acquires = true ∧ Operation.Reset ∉ after := by
  have h₁ : SuccessfulRun fullViewPort ([] ++ [Operation.Clear 7 3 255 Float32.one 0]) _ :=
    SuccessfulRun.step freshState _ (Operation.Clear 7 3 255 Float32.one 0)
      (SuccessfulRun.new 5 0 0 false)
      (@Clear_ok fullViewPort 7 3 255 Float32.one 0 freshState 1 [some 2] rfl)
  have h₂ : SuccessfulRun fullViewPort
      (([] ++ [Operation.Clear 7 3 255 Float32.one 0]) ++ [Operation.Reset]) _ :=
    SuccessfulRun.step _ _ Operation.Reset h₁ (Reset_apply fullViewPort _)
  have h₃ : SuccessfulRun fullViewPort
      ((([] ++ [Operation.Clear 7 3 255 Float32.one 0]) ++ [Operation.Reset]) ++
        [Operation.SetViewPort 7 Float32.zero Float32.zero Float32.one Float32.one]) _ :=
    SuccessfulRun.step _ _
      (Operation.SetViewPort 7 Float32.zero Float32.zero Float32.one Float32.one) h₂
      (SetViewPort_apply 7 Float32.zero Float32.zero Float32.one Float32.one _)
  refine ⟨h₃, ?_⟩
  have h := viewId_present_iff_acquired_since_reset fullViewPort _ _ h₃
  intro hex
  have := h.2 hex
  simp at this

/-! ## The rectangle configured for the current view -/

/-- A call that sets no rectangle for `id` leaves the rectangle held for `id` alone. -/
theorem rectAfter_of_not_sets (id : ViewId) (held : Option (Nat × Nat × Nat × Nat))
    (c : Call) (h : c.setsRectOf id = false) : rectAfter id held c = held := by
  cases c with
  | setViewRect i x y width height =>
    have hi : ¬ i = id := by simpa [Call.setsRectOf] using h
    simp [rectAfter, hi]
  | _ => rfl

/-- Calls that set no rectangle for `id` leave the rectangle held for `id` alone. -/
theorem foldl_rectAfter_of_not_sets (id : ViewId) (others : List Call)
    (h : ∀ c ∈ others, c.setsRectOf id = false) (held : Option (Nat × Nat × Nat × Nat)) :
    others.foldl (rectAfter id) held = held := by
  induction others generalizing held with
  | nil => rfl
  | cons c others ih =>
    rw [List.foldl_cons, rectAfter_of_not_sets id held c (h c (List.mem_cons_self _ _))]
    exact ih (fun c' hc' => h c' (List.mem_cons_of_mem _ hc')) held

/-- Appending calls that set no rectangle for `id` does not change what is held for it. -/
theorem viewRectOf_append_of_not_sets (id : ViewId) (calls others : List Call)
    (h : ∀ c ∈ others, c.setsRectOf id = false) :
    viewRectOf id (calls ++ others) = viewRectOf id calls := by
  unfold viewRectOf
  rw [List.foldl_append, foldl_rectAfter_of_not_sets id others h]

/-- After the calls of a `NewView` for `id`, followed by calls that set no rectangle
for `id`, the rectangle held for `id` is the one computed from the viewport. -/
theorem viewRectOf_after_setup (id : ViewId) (calls : List Call) (self : FrameBuffer)
    (stats : Stats) (viewPort : ViewPort) (tail : List Call)
    (h : ∀ c ∈ tail, c.setsRectOf id = false) :
    viewRectOf id (calls ++ (Call.NewViewId :: viewSetup self stats id viewPort ++ tail)) =
      some (rectFor self stats viewPort) := by
  rw [← List.append_assoc, viewRectOf_append_of_not_sets id _ tail h]
  simp [viewRectOf, List.foldl_append, viewSetup, rectFor, rectAfter]

/-- Every public operation, returning or throwing, keeps the property that the
rectangle held for the current view was computed from the committed viewport, under
some swap-chain size. -/
theorem rect_invariant_step (defaultViewPort : ViewPort) (op : Operation) (s : State)
    (h : ∀ v, s.fb.m_viewId = some v →
      ∃ stats, viewRectOf v s.calls = some (rectFor s.fb stats s.fb.m_viewPort)) :
    ∀ v, (op.run defaultViewPort s).state.fb.m_viewId = some v →
      ∃ stats, viewRectOf v (op.run defaultViewPort s).state.calls =
        some (rectFor (op.run defaultViewPort s).state.fb stats
          (op.run defaultViewPort s).state.fb.m_viewPort) := by
  have hthrew : ∀ v, s.fb.m_viewId = some v →
      ∃ stats, viewRectOf v (s.calls ++ [Call.NewViewId]) =
        some (rectFor s.fb stats s.fb.m_viewPort) := by
    intro v hv
    obtain ⟨stats, hs⟩ := h v hv
    exact ⟨stats, by rw [viewRectOf_append_of_not_sets _ _ _ (by simp [Call.setsRectOf]), hs]⟩
  rcases s.manager.NewViewId_cases with ha | ⟨id, rest, ha⟩
  · cases op with
    | Clear encoder flags rgba depth stencil =>
      rw [Operation.run, Clear_threw _ _ _ _ _ _ ha]; exact hthrew
    | Blit encoder dst dstX dstY src srcX srcY width height =>
      rw [Operation.run, Blit_threw _ _ _ _ _ _ _ _ _ _ ha]; exact hthrew
    | AcquireNewViewId => rw [Operation.run, AcquireNewViewId_threw ha]; exact hthrew
    | Submit encoder programHandle flags =>
      cases hd : requestedDiffers s.fb
      · cases hv : s.fb.m_viewId with
        | none => rw [Operation.run, Submit_unassigned_threw _ _ _ _ hd hv ha]; exact hthrew
        | some w =>
          rw [Operation.run, Submit_reuse _ _ _ _ hd hv]
          intro v hv'
          obtain ⟨stats, hs⟩ := h v hv'
          exact ⟨stats, by
            simp only [Result.state]
            rw [viewRectOf_append_of_not_sets _ _ _ (by simp [Call.setsRectOf]), hs]⟩
      · rw [Operation.run, Submit_requested_threw _ _ _ _ hd ha]; exact hthrew
    | SetViewPort encoder x y width height => exact h
    | SetStencil encoder stencilState =>
      intro v hv'
      obtain ⟨stats, hs⟩ := h v hv'
      exact ⟨stats, by
        simp only [Operation.run, SetStencil_apply, Result.state]
        rw [viewRectOf_append_of_not_sets _ _ _ (by simp [Call.setsRectOf]), hs]⟩
    | Reset => intro v hv'; simp [Operation.run, Reset_apply, Result.state] at hv'
  · cases op with
    | Clear encoder flags rgba depth stencil =>
      rw [Operation.run, Clear_ok _ _ _ _ _ _ ha]
      intro v hv'
      simp only [Result.state, Option.some.injEq] at hv'
      subst hv'
      exact ⟨s.stats, viewRectOf_after_setup _ _ _ _ _ _ (by simp [Call.setsRectOf])⟩
    | Blit encoder dst dstX dstY src srcX srcY width height =>
      rw [Operation.run, Blit_ok _ _ _ _ _ _ _ _ _ _ ha]
      intro v hv'
      simp only [Result.state, Option.some.injEq] at hv'
      subst hv'
      exact ⟨s.stats, viewRectOf_after_setup _ _ _ _ _ _ (by simp [Call.setsRectOf])⟩
    | AcquireNewViewId =>
      rw [Operation.run, AcquireNewViewId_ok ha]
      intro v hv'
      simp only [Result.state, Option.some.injEq] at hv'
      subst hv'
      have := viewRectOf_after_setup id s.calls s.fb s.stats s.fb.m_viewPort [] (by simp)
      exact ⟨s.stats, by simpa using this⟩
    | Submit encoder programHandle flags =>
      cases hd : requestedDiffers s.fb
      · cases hv : s.fb.m_viewId with
        | none =>
          rw [Operation.run, Submit_unassigned _ _ _ _ hd hv ha]
          intro v hv'
          simp only [Result.state, Option.some.injEq] at hv'
          subst hv'
          exact ⟨s.stats, viewRectOf_after_setup _ _ _ _ _ _ (by simp [Call.setsRectOf])⟩
        | some w =>
          rw [Operation.run, Submit_reuse _ _ _ _ hd hv]
          intro v hv'
          obtain ⟨stats, hs⟩ := h v hv'
          exact ⟨stats, by
            simp only [Result.state]
            rw [viewRectOf_append_of_not_sets _ _ _ (by simp [Call.setsRectOf]), hs]⟩
      · obtain ⟨requested, hr, hne⟩ := (requestedDiffers_eq_true_iff s.fb).1 hd
        rw [Operation.run, Submit_requested _ _ _ _ hr hne ha]
        intro v hv'
        simp only [Result.state, Option.some.injEq] at hv'
        subst hv'
        exact ⟨s.stats, viewRectOf_after_setup _ _ _ _ _ _ (by simp [Call.setsRectOf])⟩
    | SetViewPort encoder x y width height => exact h
    | SetStencil encoder stencilState =>
      intro v hv'
      obtain ⟨stats, hs⟩ := h v hv'
      exact ⟨stats, by
        simp only [Operation.run, SetStencil_apply, Result.state]
        rw [viewRectOf_append_of_not_sets _ _ _ (by simp [Call.setsRectOf]), hs]⟩
    | Reset => intro v hv'; simp [Operation.run, Reset_apply, Result.state] at hv'

/-- C17: in every state reachable from construction by the public operations, with
the other users of bgfx never configuring the view this target holds (the
allocator never hands a live identifier to anyone else), whenever a view identifier
is present, the last `setViewRect` issued for it carries the rectangle computed
from the committed viewport, under the swap-chain size of the time it was
issued. -/
theorem committed_viewport_is_configured (defaultViewPort : ViewPort) (s : State)
    (v : ViewId) (hreach : ReachableState defaultViewPort s)
    (hv : s.fb.m_viewId = some v) :
    ∃ stats, viewRectOf v s.calls = some (rectFor s.fb stats s.fb.m_viewPort) := by
  revert v
  induction hreach with
  | new handle width height defaultBackBuffer manager stats calls =>
    intro v hv
    cases hv
  | step s op _ ih => exact rect_invariant_step defaultViewPort op s ih
  | world s manager stats others _ hothers ih =>
    intro v hv
    obtain ⟨stats', hs⟩ := ih v hv
    exact ⟨stats', by
      show viewRectOf v (s.calls ++ others) = _
      rw [viewRectOf_append_of_not_sets _ _ _ (hothers v hv), hs]⟩

/-- The state after `Clear` on a fresh target, spelled out. -/
theorem clearedState_eq :
    clearedState =
      { fb := { freshState.fb with m_viewId := some 1, m_viewPort := fullViewPort }
        manager := { upcoming := [some 2], live := [1, 0] }
        stats := freshState.stats
        calls := freshState.calls ++
          (Call.NewViewId :: viewSetup freshState.fb freshState.stats 1 fullViewPort ++
            [Call.touch 7 1, Call.setViewClear 1 3 255 Float32.one 0]) } := by
  unfold clearedState
  rw [@Clear_ok fullViewPort 7 3 255 Float32.one 0 freshState 1 [some 2] rfl]
  rfl

/-- C17 at a fresh target after a `Clear` that was given view 1. -/
theorem committed_viewport_is_configured_witness :
    ReachableState fullViewPort clearedState ∧
    clearedState.fb.m_viewId = some 1 ∧
    ∃ stats, viewRectOf 1 clearedState.calls =
      some (rectFor clearedState.fb stats clearedState.fb.m_viewPort) :=
  have hreach : ReachableState fullViewPort clearedState :=
    ReachableState.step freshState (Operation.Clear 7 3 255 Float32.one 0)
      (ReachableState.new 5 0 0 false _ _ _)
  have hv : clearedState.fb.m_viewId = some 1 := by rw [clearedState_eq]
  ⟨hreach, hv, committed_viewport_is_configured fullViewPort clearedState 1 hreach hv⟩

/-! ## What an acquisition configures -/

/-- The cast to `uint16_t` rounds toward zero, then reduces modulo `2¹⁶`. -/
theorem toUInt16_eq_truncTowardZero (q : ℚ) :
    toUInt16 q = (truncTowardZero q % 65536).toNat := by
  unfold toUInt16 truncTowardZero
  by_cases h : 0 ≤ q
  · rw [if_pos h, Rat.floor_def, Int.tdiv_eq_ediv (Rat.num_nonneg.2 h) (Int.natCast_nonneg _)]
  · rw [if_neg h]
    have hneg : 0 ≤ -q := by linarith [not_le.1 h]
    have hceil : ⌈q⌉ = -⌊-q⌋ := by rw [Int.floor_neg, neg_neg]
    have htdiv : Int.tdiv q.num (q.den : ℤ) = -(Int.tdiv (-q.num) (q.den : ℤ)) := by
      rw [Int.neg_tdiv, neg_neg]
    rw [hceil, Rat.floor_def, Rat.neg_num, Rat.neg_den, htdiv,
      Int.tdiv_eq_ediv (by rw [← Rat.neg_num]; exact Rat.num_nonneg.2 hneg)
        (Int.natCast_nonneg _)]

/-- The cast of a natural number below `2¹⁶` is that number. -/
theorem toUInt16_natCast (n : ℕ) (h : n < 65536) : toUInt16 (n : ℚ) = n := by
  have h0 : (0 : ℤ) ≤ (n : ℤ) := Int.natCast_nonneg n
  simp only [toUInt16, Rat.num_natCast, Rat.den_natCast, Nat.cast_one]
  rw [Int.tdiv_eq_ediv h0 (by norm_num), Int.ediv_one, Int.emod_eq_of_lt h0 (by omega)]
  simp

/-- For a finite fraction, the pixel count is the cast of the exact product rounded
to the nearest `float`. -/
theorem scaleToPixels_of_isFinite {fraction : Float32} (h : fraction.isFinite = true)
    (size : Nat) :
    scaleToPixels fraction size =
      (FloatValue.round (fraction.toRat * (size : ℚ))).toUInt16 := by
  simp [scaleToPixels, Float32.value_of_isFinite h, FloatValue.ofUInt16, FloatValue.mul]

/-- The product `0.0f * size` gives 0 pixels. -/
theorem scaleToPixels_zero (size : Nat) : scaleToPixels Float32.zero size = 0 := by
  rw [@scaleToPixels_of_isFinite Float32.zero rfl, Float32.toRat_zero, zero_mul,
    FloatValue.round_zero]
  simp [FloatValue.toUInt16, toUInt16]

/-- The product `1.0f * 800` gives 800 pixels. -/
theorem scaleToPixels_one_800 : scaleToPixels Float32.one 800 = 800 := by
  rw [@scaleToPixels_of_isFinite Float32.one rfl, Float32.toRat_one, one_mul,
    @FloatValue.round_eq ((800 : ℕ) : ℚ) 9 13107200
      (by norm_num [abs_of_pos]) (by norm_num [abs_of_pos]) (by norm_num)
      (by norm_num [abs_lt]) (by norm_num [abs_of_pos])]
  have h : ((13107200 : ℤ) : ℚ) * 2 ^ ((9 : ℤ) - 23) = ((800 : ℕ) : ℚ) := by norm_num
  rw [h]
  exact toUInt16_natCast 800 (by norm_num)

/-- The product `1.0f * 600` gives 600 pixels. -/
theorem scaleToPixels_one_600 : scaleToPixels Float32.one 600 = 600 := by
  rw [@scaleToPixels_of_isFinite Float32.one rfl, Float32.toRat_one, one_mul,
    @FloatValue.round_eq ((600 : ℕ) : ℚ) 9 9830400
      (by norm_num [abs_of_pos]) (by norm_num [abs_of_pos]) (by norm_num)
      (by norm_num [abs_lt]) (by norm_num [abs_of_pos])]
  have h : ((9830400 : ℤ) : ℚ) * 2 ^ ((9 : ℤ) - 23) = ((600 : ℕ) : ℚ) := by norm_num
  rw [h]
  exact toUInt16_natCast 600 (by norm_num)

/-- The product `0.7f * 800` gives 560 pixels: the exact product `559.99999237…` lies
between the `float`s `559.99993896…` and `560`, nearer to the latter. -/
theorem scaleToPixels_sevenTenths_800 : scaleToPixels Float32.sevenTenths 800 = 560 := by
  rw [@scaleToPixels_of_isFinite Float32.sevenTenths rfl, Float32.toRat_sevenTenths,
    @FloatValue.round_eq (11744051 / 16777216 * ((800 : ℕ) : ℚ)) 9 9175040
      (by norm_num [abs_of_pos]) (by norm_num [abs_of_pos]) (by norm_num)
      (by norm_num [abs_lt]) (by norm_num [abs_of_pos])]
  have h : ((9175040 : ℤ) : ℚ) * 2 ^ ((9 : ℤ) - 23) = ((560 : ℕ) : ℚ) := by norm_num
  rw [h]
  exact toUInt16_natCast 560 (by norm_num)

/-- C18 (amended): whenever `Clear`, `Submit`, `Blit` or `AcquireNewViewId` acquires a
view identifier `v`, the calls it issues are the request followed by the four
configuration calls for `v` and only then its touch, submit, blit or caller's
clear parameters.  The four calls set sequential mode, `BGFX_CLEAR_NONE`, this
target's handle, and the rectangle whose components are the casts of the `float`
products `X * W`, `Y * H`, `Width * W` and `Height * H`, for the viewport
`(X, Y, Width, Height)` being committed and `W`, `H` the target's current `Width()`
and `Height()`.  Such a product is the exact product rounded to the nearest `float`,
and the cast rounds that `float` toward zero whenever the result fits in 16 bits. -/
theorem acquisition_configures_before_use (defaultViewPort : ViewPort) (s : State)
    (encoder : Encoder) (flags rgba : Nat) (depth : Float32) (stencil : Nat)
    (dst : TextureHandle) (dstX dstY : Nat) (src : TextureHandle)
    (srcX srcY width height : Nat) (programHandle : ProgramHandle) (submitFlags : Nat)
    (v : ViewId) (rest : List (Option ViewId))
    (halloc : s.manager.upcoming = some v :: rest) :
    (∀ viewPort : ViewPort,
      viewSetup s.fb s.stats v viewPort =
        [ Call.setViewMode v ViewMode.Sequential,
          Call.setViewClear v BGFX_CLEAR_NONE 0x000000ff Float32.one 0,
          Call.setViewFrameBuffer v s.fb.m_handle,
          Call.setViewRect v
            (scaleToPixels viewPort.X (s.fb.Width s.stats))
            (scaleToPixels viewPort.Y (s.fb.Height s.stats))
            (scaleToPixels viewPort.Width (s.fb.Width s.stats))
            (scaleToPixels viewPort.Height (s.fb.Height s.stats)) ]) ∧
    (∀ (fraction : Float32) (size : Nat) (r : ℚ), fraction.isFinite = true →
      FloatValue.round (fraction.toRat * (size : ℚ)) = .fin r →
      0 ≤ truncTowardZero r → truncTowardZero r < 65536 →
      (scaleToPixels fraction size : ℤ) = truncTowardZero r) ∧
    Clear defaultViewPort encoder flags rgba depth stencil s = .ok ()
      { fb := { s.fb with m_viewId := some v, m_viewPort := defaultViewPort }
        manager := { upcoming := rest, live := v :: s.manager.live }
        stats := s.stats
        calls := s.calls ++ (Call.NewViewId :: viewSetup s.fb s.stats v defaultViewPort ++
          [Call.touch encoder v, Call.setViewClear v flags rgba depth stencil]) } ∧
    Blit defaultViewPort encoder dst dstX dstY src srcX srcY width height s = .ok ()
      { fb := { s.fb with m_viewId := some v, m_viewPort := defaultViewPort }
        manager := { upcoming := rest, live := v :: s.manager.live }
        stats := s.stats
        calls := s.calls ++ (Call.NewViewId :: viewSetup s.fb s.stats v defaultViewPort ++
          [Call.blit encoder v dst dstX dstY src srcX srcY width height]) } ∧
    AcquireNewViewId s = .ok ()
      { fb := { s.fb with m_viewId := some v }
        manager := { upcoming := rest, live := v :: s.manager.live }
        stats := s.stats
        calls := s.calls ++ (Call.NewViewId :: viewSetup s.fb s.stats v s.fb.m_viewPort) } ∧
    (∀ requested, s.fb.m_requestedViewPort = some requested →
      requested.Equals s.fb.m_viewPort = false →
      Submit defaultViewPort encoder programHandle submitFlags s = .ok ()
        { fb := { s.fb with m_viewId := some v, m_viewPort := requested }
          manager := { upcoming := rest, live := v :: s.manager.live }
          stats := s.stats
          calls := s.calls ++ (Call.NewViewId :: viewSetup s.fb s.stats v requested ++
            [Call.submit encoder v programHandle 0 submitFlags]) }) ∧
    (requestedDiffers s.fb = false → s.fb.m_viewId = none →
      Submit defaultViewPort encoder programHandle submitFlags s = .ok ()
        { fb := { s.fb with m_viewId := some v, m_viewPort := defaultViewPort }
          manager := { upcoming := rest, live := v :: s.manager.live }
          stats := s.stats
          calls := s.calls ++ (Call.NewViewId :: viewSetup s.fb s.stats v defaultViewPort ++
            [Call.submit encoder v programHandle 0 submitFlags]) }) := by
  refine ⟨fun _ => rfl, ?_, Clear_ok _ _ _ _ _ _ halloc, Blit_ok _ _ _ _ _ _ _ _ _ _ halloc,
    AcquireNewViewId_ok halloc, fun requested hr hne => Submit_requested _ _ _ _ hr hne halloc,
    fun hd hv => Submit_unassigned _ _ _ _ hd hv halloc⟩
  intro fraction size r hfinite hround h0 h1
  rw [scaleToPixels_of_isFinite hfinite, hround]
  show ((toUInt16 r : ℕ) : ℤ) = truncTowardZero r
  rw [toUInt16_eq_truncTowardZero, Int.emod_eq_of_lt h0 h1, Int.toNat_of_nonneg h0]

/-- The amended C18 at a fresh target of the swap chain's size 800 × 600, when `Blit` is
given view 1: the rectangle configured for the full viewport is `(0, 0, 800, 600)`. -/
theorem acquisition_configures_before_use_witness :
    freshState.manager.upcoming = some 1 :: [some 2] ∧
    Blit fullViewPort 7 10 0 0 11 0 0 64 64 freshState = .ok ()
      { fb := { freshState.fb with m_viewId := some 1, m_viewPort := fullViewPort }
        manager := { upcoming := [some 2], live := [1, 0] }
        stats := freshState.stats
        calls :=
          [ Call.NewViewId,
            Call.setViewMode 1 ViewMode.Sequential,
            Call.setViewClear 1 0 255 Float32.one 0,
            Call.setViewFrameBuffer 1 5,
            Call.setViewRect 1 0 0 800 600,
            Call.blit 7 1 10 0 0 11 0 0 64 64 ] } := by
  have h := (acquisition_configures_before_use fullViewPort freshState 7 3 255 Float32.one 0
    10 0 0 11 0 0 64 64 3 0 1 [some 2] rfl).2.2.2.1
  refine ⟨rfl, h.trans ?_⟩
  simp [viewSetup, freshState, FrameBuffer.new, fullViewPort, FrameBuffer.Width,
    FrameBuffer.Height, BGFX_CLEAR_NONE, scaleToPixels_zero, scaleToPixels_one_800,
    scaleToPixels_one_600]

/-- C18 as stated fails on a fresh target of the swap chain's size 800 × 600 after
`SetViewPort(0.7f, 0, 1, 1)`: `Submit` configures view 1 with the rectangle
`(560, 0, 800, 600)`, while `X * W` is `559.99999237…` exactly, which truncates to
559.  The product is a `float` multiplication, and that rounds up to `560`. -/
theorem Submit_rect_is_not_truncated_exact_product :
    sevenTenthsPendingState.fb.m_requestedViewPort = some sevenTenthsViewPort ∧
    sevenTenthsPendingState.fb.Width sevenTenthsPendingState.stats = 800 ∧
    Submit fullViewPort 7 3 0 sevenTenthsPendingState = .ok ()
      { fb := { sevenTenthsPendingState.fb with
                m_viewId := some 1, m_viewPort := sevenTenthsViewPort }
        manager := { upcoming := [some 2], live := [1, 0] }
        stats := sevenTenthsPendingState.stats
        calls :=
          [ Call.NewViewId,
            Call.setViewMode 1 ViewMode.Sequential,
            Call.setViewClear 1 0 255 Float32.one 0,
            Call.setViewFrameBuffer 1 5,
            Call.setViewRect 1 560 0 800 600,
            Call.submit 7 1 3 0 0 ] } ∧
    truncTowardZero (sevenTenthsViewPort.X.toRat * 800) = 559 := by
  have hne : sevenTenthsViewPort.Equals sevenTenthsPendingState.fb.m_viewPort = false := by
    apply ViewPort.Equals_eq_false_of_far
    left
    refine ⟨rfl, rfl, ?_⟩
    show epsilon ≤ |Float32.sevenTenths.toRat - Float32.zero.toRat|
    rw [Float32.toRat_sevenTenths, Float32.toRat_zero, sub_zero, abs_of_pos (by norm_num)]
    norm_num [epsilon]
  have h := @Submit_requested fullViewPort 7 3 0 sevenTenthsPendingState sevenTenthsViewPort
    1 [some 2] rfl hne rfl
  refine ⟨rfl, rfl, h.trans ?_, ?_⟩
  · simp [viewSetup, sevenTenthsPendingState, SetViewPort_apply, Result.state, freshState,
      FrameBuffer.new, sevenTenthsViewPort, FrameBuffer.Width, FrameBuffer.Height,
      BGFX_CLEAR_NONE, scaleToPixels_zero, scaleToPixels_one_800, scaleToPixels_one_600,
      scaleToPixels_sevenTenths_800]
  · show truncTowardZero (Float32.sevenTenths.toRat * 800) = 559
    rw [Float32.toRat_sevenTenths, truncTowardZero, if_pos (by norm_num)]
    exact Int.floor_eq_iff.2 ⟨by norm_num, by norm_num⟩

/-! ## The view identifier is present where it is read -/

/-- C19: in every state, `Clear`, `Submit` and `Blit` never end with the exception of
`m_viewId.value()` on an empty optional; and when the allocator answers the next
request, each of them returns, with a view identifier present in the state in which
it has forwarded its command.  This holds in every state, so also for a `Submit`
on a freshly constructed or freshly reset target, with or without a pending
viewport. -/
theorem viewId_value_never_empty (defaultViewPort : ViewPort) (s : State)
    (encoder : Encoder) (flags rgba : Nat) (depth : Float32) (stencil : Nat)
    (dst : TextureHandle) (dstX dstY : Nat) (src : TextureHandle)
    (srcX srcY width height : Nat) (programHandle : ProgramHandle) (submitFlags : Nat) :
    (∀ s', Clear defaultViewPort encoder flags rgba depth stencil s ≠
      .threw .badOptionalAccess s') ∧
    (∀ s', Submit defaultViewPort encoder programHandle submitFlags s ≠
      .threw .badOptionalAccess s') ∧
    (∀ s', Blit defaultViewPort encoder dst dstX dstY src srcX srcY width height s ≠
      .threw .badOptionalAccess s') ∧
    (∀ v rest, s.manager.upcoming = some v :: rest →
      (∃ s', Clear defaultViewPort encoder flags rgba depth stencil s = .ok () s' ∧
        s'.fb.m_viewId.isSome = true) ∧
      (∃ s', Submit defaultViewPort encoder programHandle submitFlags s = .ok () s' ∧
        s'.fb.m_viewId.isSome = true) ∧
      (∃ s', Blit defaultViewPort encoder dst dstX dstY src srcX srcY width height s =
          .ok () s' ∧
        s'.fb.m_viewId.isSome = true)) := by
  have hsubmit : ∀ v rest, s.manager.upcoming = some v :: rest →
      ∃ s', Submit defaultViewPort encoder programHandle submitFlags s = .ok () s' ∧
        s'.fb.m_viewId.isSome = true := by
    intro v rest ha
    cases hd : requestedDiffers s.fb
    · cases hv : s.fb.m_viewId with
      | none => exact ⟨_, Submit_unassigned _ _ _ _ hd hv ha, rfl⟩
      | some w => exact ⟨_, Submit_reuse _ _ _ _ hd hv, by simp [hv]⟩
    · obtain ⟨requested, hr, hne⟩ := (requestedDiffers_eq_true_iff s.fb).1 hd
      exact ⟨_, Submit_requested _ _ _ _ hr hne ha, rfl⟩
  refine ⟨?_, ?_, ?_, fun v rest ha =>
    ⟨⟨_, Clear_ok _ _ _ _ _ _ ha, rfl⟩, hsubmit v rest ha,
      ⟨_, Blit_ok _ _ _ _ _ _ _ _ _ _ ha, rfl⟩⟩⟩
  · intro s'
    rcases s.manager.NewViewId_cases with ha | ⟨v, rest, ha⟩
    · rw [Clear_threw _ _ _ _ _ _ ha]; simp
    · rw [Clear_ok _ _ _ _ _ _ ha]; simp
  · intro s'
    rcases s.manager.NewViewId_cases with ha | ⟨v, rest, ha⟩
    · cases hd : requestedDiffers s.fb
      · cases hv : s.fb.m_viewId with
        | none => rw [Submit_unassigned_threw _ _ _ _ hd hv ha]; simp
        | some w => rw [Submit_reuse _ _ _ _ hd hv]; simp
      · rw [Submit_requested_threw _ _ _ _ hd ha]; simp
    · obtain ⟨s'', h, -⟩ := hsubmit v rest ha
      rw [h]; simp
  · intro s'
    rcases s.manager.NewViewId_cases with ha | ⟨v, rest, ha⟩
    · rw [Blit_threw _ _ _ _ _ _ _ _ _ _ ha]; simp
    · rw [Blit_ok _ _ _ _ _ _ _ _ _ _ ha]; simp

/-- C19 at a freshly constructed target: `Submit` returns with view 1 assigned. -/
theorem viewId_value_never_empty_witness :
    freshState.fb.m_viewId = none ∧
    ∃ s', Submit fullViewPort 7 3 0 freshState = .ok () s' ∧ s'.fb.m_viewId.isSome = true :=
  ⟨rfl, ((viewId_value_never_empty fullViewPort freshState 7 3 255 Float32.one 0
      10 0 0 11 0 0 64 64 3 0).2.2.2 1 [some 2] rfl).2.1⟩

/-! ## Submit after Clear or Blit -/

/-- A run of `SetViewPort` calls returns, and changes nothing but the pending viewport. -/
theorem runAll_setViewPort (defaultViewPort : ViewPort) (ops : List Operation)
    (hops : ∀ op ∈ ops, op.isSetViewPort = true) (s : State) :
    ∃ pending, runAll defaultViewPort ops s =
      .ok () { s with fb := { s.fb with m_requestedViewPort := pending } } := by
  induction ops generalizing s with
  | nil => exact ⟨s.fb.m_requestedViewPort, rfl⟩
  | cons op ops ih =>
    have hrest : ∀ o ∈ ops, o.isSetViewPort = true :=
      fun o ho => hops o (List.mem_cons_of_mem _ ho)
    have hop := hops op (List.mem_cons_self _ _)
    cases op with
    | SetViewPort encoder x y width height =>
      obtain ⟨pending, h⟩ := ih hrest
        { s with fb := { s.fb with m_requestedViewPort := some ⟨x, y, width, height⟩ } }
      exact ⟨pending, by simp [runAll, Operation.run, SetViewPort_apply, h]⟩
    | _ => simp [Operation.isSetViewPort] at hop

/-- A `Clear` or a `Blit` that is given view `v` assigns `v`, commits the default
viewport, leaves the pending viewport in place and hands the rest of the
allocator's answers on. -/
theorem run_clearOrBlit_ok (defaultViewPort : ViewPort) (first : Operation) (s : State)
    (v : ViewId) (rest : List (Option ViewId)) (hfirst : first.isClearOrBlit = true)
    (halloc : s.manager.upcoming = some v :: rest) :
    ∃ calls, first.run defaultViewPort s = .ok ()
      { fb := { s.fb with m_viewId := some v, m_viewPort := defaultViewPort }
        manager := { upcoming := rest, live := v :: s.manager.live }
        stats := s.stats
        calls := calls } := by
  cases first with
  | Clear encoder flags rgba depth stencil => exact ⟨_, Clear_ok _ _ _ _ _ _ halloc⟩
  | Blit encoder dst dstX dstY src srcX srcY width height =>
    exact ⟨_, Blit_ok _ _ _ _ _ _ _ _ _ _ halloc⟩
  | _ => cases hfirst

/-- C20: in every state, let a `Clear` or a `Blit` be given view `v`, let any number
of `SetViewPort` calls follow, and then a `Submit`.  In the state `s₂` the `Submit`
starts in, `v` is assigned and the default viewport is committed.  The `Submit`
issues nothing but its draw into `v` if and only if the viewport pending in `s₂`
is absent or `Equals` the default viewport.  Otherwise, when the allocator answers
again with `v₂`, the `Submit` configures `v₂` for the pending viewport and draws
into `v₂`; under the allocator's contract `v₂ ≠ v`, so the identifier drawn into
is `v` exactly in the first case. -/
theorem Submit_after_Clear_or_Blit (defaultViewPort : ViewPort) (s : State)
    (first : Operation) (between : List Operation)
    (encoder : Encoder) (programHandle : ProgramHandle) (flags : Nat)
    (v : ViewId) (rest : List (Option ViewId))
    (hfirst : first.isClearOrBlit = true)
    (hbetween : ∀ op ∈ between, op.isSetViewPort = true)
    (halloc : s.manager.upcoming = some v :: rest) :
    ∃ s₁ s₂,
      first.run defaultViewPort s = .ok () s₁ ∧
      s₁.fb.m_requestedViewPort = s.fb.m_requestedViewPort ∧
      runAll defaultViewPort between s₁ = .ok () s₂ ∧
      s₂.fb.m_viewId = some v ∧
      s₂.fb.m_viewPort = defaultViewPort ∧
      (Submit defaultViewPort encoder programHandle flags s₂ =
          .ok () { s₂ with calls := s₂.calls ++ [Call.submit encoder v programHandle 0 flags] } ↔
        ∀ requested, s₂.fb.m_requestedViewPort = some requested →
          requested.Equals defaultViewPort = true) ∧
      (∀ requested v₂ rest',
        s₂.fb.m_requestedViewPort = some requested →
        requested.Equals defaultViewPort = false →
        rest = some v₂ :: rest' →
        Submit defaultViewPort encoder programHandle flags s₂ = .ok ()
          { fb := { s₂.fb with m_viewId := some v₂, m_viewPort := requested }
            manager := { upcoming := rest', live := v₂ :: s₂.manager.live }
            stats := s₂.stats
            calls := s₂.calls ++ (Call.NewViewId :: viewSetup s₂.fb s₂.stats v₂ requested ++
              [Call.submit encoder v₂ programHandle 0 flags]) } ∧
        (s.manager.Unique → v₂ ≠ v)) ∧
      (∀ v₂ rest', rest = some v₂ :: rest' → s.manager.Unique →
        ∃ w s₃,
          Submit defaultViewPort encoder programHandle flags s₂ = .ok () s₃ ∧
          s₃.calls.getLast? = some (Call.submit encoder w programHandle 0 flags) ∧
          (w = v ↔ ∀ requested, s₂.fb.m_requestedViewPort = some requested →
            requested.Equals defaultViewPort = true)) := by
  obtain ⟨calls, h₁⟩ := run_clearOrBlit_ok defaultViewPort first s v rest hfirst halloc
  obtain ⟨pending, h₂⟩ := runAll_setViewPort defaultViewPort between hbetween
    { fb := { s.fb with m_viewId := some v, m_viewPort := defaultViewPort }
      manager := { upcoming := rest, live := v :: s.manager.live }
      stats := s.stats
      calls := calls }
  refine ⟨_, _, h₁, rfl, h₂, rfl, rfl, ?_, ?_, ?_⟩
  · constructor
    · intro hsub requested hr
      by_contra hne
      rw [Bool.not_eq_true] at hne
      rcases rest with _ | ⟨_ | v₂, rest'⟩
      · rw [Submit_requested_threw _ _ _ _
          ((requestedDiffers_eq_true_iff _).2 ⟨requested, hr, hne⟩) rfl] at hsub
        cases hsub
      · rw [Submit_requested_threw _ _ _ _
          ((requestedDiffers_eq_true_iff _).2 ⟨requested, hr, hne⟩) rfl] at hsub
        cases hsub
      · rw [Submit_requested _ _ _ _ hr hne rfl] at hsub
        simp [viewSetup] at hsub
    · intro hcond
      refine Submit_reuse _ _ _ _ ?_ rfl
      cases hp : pending with
      | none => simp [requestedDiffers, hp]
      | some requested =>
        have := hcond requested (by simp [hp])
        simp [requestedDiffers, hp, this]
  · intro requested v₂ rest' hr hne hrest
    subst hrest
    refine ⟨Submit_requested _ _ _ _ hr hne rfl, fun hu => ?_⟩
    exact (hu.next halloc).ne_of_mem_live rfl (List.mem_cons_self _ _)
  · intro v₂ rest' hrest hu
    subst hrest
    have hne₂ : v₂ ≠ v := (hu.next halloc).ne_of_mem_live rfl (List.mem_cons_self _ _)
    cases hp : pending with
    | none =>
      subst hp
      refine ⟨v, _, Submit_reuse _ _ _ _ (by simp [requestedDiffers]) rfl, by simp, ?_⟩
      simp
    | some requested =>
      subst hp
      cases he : requested.Equals defaultViewPort
      · refine ⟨v₂, _, Submit_requested _ _ _ _ rfl he rfl, by simp [viewSetup], ?_⟩
        simp [hne₂, he]
      · refine ⟨v, _, Submit_reuse _ _ _ _ (by simp [requestedDiffers, he]) rfl, by simp, ?_⟩
        simp [he]

/-- C20 at a freshly constructed target: `Clear` is given view 1; with the lower right
quarter requested in between, `Submit` does not just draw into view 1. -/
theorem Submit_after_Clear_or_Blit_witness :
    (Operation.Clear 7 3 255 Float32.one 0).isClearOrBlit = true ∧
    (∀ op ∈ [Operation.SetViewPort 7 Float32.half Float32.half Float32.half Float32.half],
      op.isSetViewPort = true) ∧
    freshState.manager.upcoming = some 1 :: [some 2] ∧
    ∃ s₁ s₂,
      (Operation.Clear 7 3 255 Float32.one 0).run fullViewPort freshState = .ok () s₁ ∧
      runAll fullViewPort
          [Operation.SetViewPort 7 Float32.half Float32.half Float32.half Float32.half] s₁ =
        .ok () s₂ ∧
      s₂.fb.m_viewId = some 1 ∧
      s₂.fb.m_viewPort = fullViewPort := by
  have hbetween : ∀ op ∈
      [Operation.SetViewPort 7 Float32.half Float32.half Float32.half Float32.half],
      op.isSetViewPort = true := by
    simp [Operation.isSetViewPort]
  obtain ⟨s₁, s₂, h₁, -, h₂, hv, hvp, -⟩ :=
    Submit_after_Clear_or_Blit fullViewPort freshState (Operation.Clear 7 3 255 Float32.one 0)
      [Operation.SetViewPort 7 Float32.half Float32.half Float32.half Float32.half] 7 3 0 1
      [some 2] rfl
      hbetween rfl
  exact ⟨rfl, hbetween, rfl, s₁, s₂, h₁, h₂, hv, hvp⟩

end Babylon
